import Mathlib

/-!
Shallow embedding of the inbound MIDI framing, interpretation and
subscription/cache engine of the dLive Companion module
(src/FeedbackHandler.ts), together with proofs of the specified
properties.

Modelling conventions:
- bytes are Nat (the TS code reads Buffer entries, 0..255; the bitwise
  tests are translated literally with Nat.land);
- JS strings are Lean String, but the JS string operations used by the
  code (split, endsWith, replace, trim, parseInt) are re-implemented
  over String.data so that they compute by kernel reduction;
- JS objects used as maps are association lists in insertion order,
  matching object key iteration order for the non-numeric keys used here;
- JS numbers holding reference counts are Int (they can in principle go
  negative); MIDI bytes stay Nat;
- the real-number arithmetic in midiValueToDb is exact: gain * 10 is the
  rational (v * 640 - 68580) / 127 and Math.round(x) is ⌊x + 1/2⌋,
  implemented with exact integer floor division (Int.fdiv); for all
  inputs 0..127 the IEEE double computation of the source is more than
  1e10 times closer to the exact value than to a rounding boundary, so
  the exact model agrees with the source;
- side effects on the Companion host (checkFeedbacksById,
  setVariableValues, setVariableDefinitions, requestChannelName) are
  collected in an explicit effect trace; debug/warn logging is dropped.
-/

/-! ## JS string primitives over String.data -/

/-- Helper for jsSplit: walks the character list, cutting at the separator. -/
def splitCharsAux (sep : Char) : List Char → List Char → List String
  | [], acc => [String.mk acc.reverse]
  | c :: rest, acc =>
    if c = sep then String.mk acc.reverse :: splitCharsAux sep rest []
    else splitCharsAux sep rest (c :: acc)

/-- JS String.prototype.split with a single-character separator. -/
def jsSplit (s : String) (sep : Char) : List String :=
  splitCharsAux sep s.data []

/-- JS String.prototype.endsWith. -/
def jsEndsWith (s suffixStr : String) : Bool :=
  decide (suffixStr.data = s.data.drop (s.data.length - suffixStr.data.length))

/-- JS String.prototype.replaceAll with single-character pattern and replacement. -/
def jsReplaceChar (s : String) (pat repl : Char) : String :=
  String.mk (s.data.map (fun c => if c = pat then repl else c))

/-- JS String.prototype.trim: strip leading and trailing whitespace. -/
def jsTrim (s : String) : String :=
  String.mk (((s.data.dropWhile Char.isWhitespace).reverse.dropWhile
    Char.isWhitespace).reverse)

/-- Leading decimal digits of a character list, if any. -/
def leadingDigits (cs : List Char) : Option Nat :=
  let ds := cs.takeWhile Char.isDigit
  if ds = [] then none
  else some (ds.foldl (fun a c => a * 10 + (c.toNat - 48)) 0)

/-- JS parseInt(s, 10): skip leading whitespace, optional sign, then leading
decimal digits; none models NaN. -/
def jsParseInt (s : String) : Option Int :=
  match s.data.dropWhile Char.isWhitespace with
  | '-' :: rest => (leadingDigits rest).map (fun n => -(n : Int))
  | '+' :: rest => (leadingDigits rest).map (fun n => (n : Int))
  | cs => (leadingDigits cs).map (fun n => (n : Int))

/-! ## Association-list maps (JS objects keyed by strings) -/

/-- Lookup in an association list (JS object property read). -/
def lookupEntry (m : List (String × α)) (k : String) : Option α :=
  (m.find? (fun p => p.1 = k)).map (fun p => p.2)

/-- Write in an association list: overwrite in place if the key exists,
append otherwise (JS object property write preserves insertion order; keys
are unique, so overwriting the first occurrence is the JS behaviour). -/
def setEntry : List (String × α) → String → α → List (String × α)
  | [], k, v => [(k, v)]
  | p :: m, k, v => if p.1 = k then (k, v) :: m else p :: setEntry m k v

/-- Delete from an association list (JS delete). -/
def eraseEntry (m : List (String × α)) (k : String) : List (String × α) :=
  m.filter (fun p => p.1 ≠ k)

/-! ## Data model -/

/-- Channel types of the dLive console (closed enumeration). -/
inductive ChannelType
  | input | mono_group | stereo_group | mono_aux | stereo_aux
  | mono_matrix | stereo_matrix | mono_fx_send | stereo_fx_send | fx_return
  | main | dca | mute_group | stereo_ufx_send | stereo_ufx_return
deriving DecidableEq, Repr

/-- The TS string literal of a channel type. -/
def channelTypeName : ChannelType → String
  | .input => "input"
  | .mono_group => "mono_group"
  | .stereo_group => "stereo_group"
  | .mono_aux => "mono_aux"
  | .stereo_aux => "stereo_aux"
  | .mono_matrix => "mono_matrix"
  | .stereo_matrix => "stereo_matrix"
  | .mono_fx_send => "mono_fx_send"
  | .stereo_fx_send => "stereo_fx_send"
  | .fx_return => "fx_return"
  | .main => "main"
  | .dca => "dca"
  | .mute_group => "mute_group"
  | .stereo_ufx_send => "stereo_ufx_send"
  | .stereo_ufx_return => "stereo_ufx_return"

/-- DLiveValueType: number, boolean or string. -/
inductive DLiveValue
  | num (n : Nat)
  | bool (b : Bool)
  | str (s : String)
deriving DecidableEq, Repr

/-- JS truthiness of a DLiveValue. -/
def truthy : DLiveValue → Bool
  | .num n => n ≠ 0
  | .bool b => b
  | .str s => s ≠ ""

/-- JS template interpolation of a DLiveValue into a string. -/
def valueToDisplayString : DLiveValue → String
  | .num n => n.repr
  | .bool b => if b then "true" else "false"
  | .str s => s

/-- Message kinds of ParsedMidiMessage. -/
inductive MsgKind
  | note | control_change | program_change | sysex | unknown
deriving DecidableEq, Repr

/-- ParsedMidiMessage: the semantic event produced by parseMidiMessage.
Optional fields model the optional TS fields. -/
structure ParsedMidiMessage where
  type : MsgKind
  channelType : Option ChannelType
  channelNo : Option Nat
  parameter : Option String
  value : Option DLiveValue
  raw : List Nat
deriving DecidableEq, Repr

/-! ## Channel address resolver -/

/-- getChannelInfoFromMidi: maps (midiChannel, noteOrChannel) to channel
type and index, relative to the configured base MIDI channel. -/
def getChannelInfoFromMidi (baseMidiChannel midiChannel noteOrChannel : Nat) :
    ChannelType × Nat :=
  let offset : Int := (midiChannel : Int) - (baseMidiChannel : Int)
  if offset = 0 then (.input, noteOrChannel)
  else if offset = 1 then
    if noteOrChannel ≥ 0x40 then (.stereo_group, noteOrChannel - 0x40)
    else (.mono_group, noteOrChannel)
  else if offset = 2 then
    if noteOrChannel ≥ 0x40 then (.stereo_aux, noteOrChannel - 0x40)
    else (.mono_aux, noteOrChannel)
  else if offset = 3 then
    if noteOrChannel ≥ 0x40 then (.stereo_matrix, noteOrChannel - 0x40)
    else (.mono_matrix, noteOrChannel)
  else if offset = 4 then
    if 0x5e ≤ noteOrChannel ∧ noteOrChannel ≤ 0x65 then
      (.stereo_ufx_return, noteOrChannel - 0x5e)
    else if 0x56 ≤ noteOrChannel ∧ noteOrChannel ≤ 0x5d then
      (.stereo_ufx_send, noteOrChannel - 0x56)
    else if 0x4e ≤ noteOrChannel ∧ noteOrChannel ≤ 0x55 then
      (.mute_group, noteOrChannel - 0x4e)
    else if 0x36 ≤ noteOrChannel ∧ noteOrChannel ≤ 0x4d then
      (.dca, noteOrChannel - 0x36)
    else if 0x30 ≤ noteOrChannel ∧ noteOrChannel ≤ 0x35 then
      (.main, noteOrChannel - 0x30)
    else if 0x20 ≤ noteOrChannel ∧ noteOrChannel ≤ 0x2f then
      (.fx_return, noteOrChannel - 0x20)
    else if 0x10 ≤ noteOrChannel ∧ noteOrChannel ≤ 0x1f then
      (.stereo_fx_send, noteOrChannel - 0x10)
    else (.mono_fx_send, noteOrChannel)
  else (.input, noteOrChannel)

/-! ## Value formatter -/

/-- Math.round(num / den) for den > 0, computed exactly:
⌊num / den + 1 / 2⌋ = fdiv (2 * num + den) (2 * den). -/
def mathRoundDiv (num den : Int) : Int :=
  Int.fdiv (2 * num + den) (2 * den)

/-- Number.prototype.toFixed(1) for an exact multiple of one tenth,
given as the integer number of tenths. -/
def tenthsRender (t : Int) : String :=
  let sign := if t < 0 then "-" else ""
  let a := t.natAbs
  sign ++ (a / 10).repr ++ "." ++ (a % 10).repr

/-- midiValueToDb: converts a raw MIDI fader value (0..127) to a dB display
string. The source computes gain = (midiValue * 64) / 127 - 54 in floating
point and Math.round(gain * 10) / 10, then renders with toFixed(1) and a
plus prefix for positive values. Here gain * 10 is the exact rational
(midiValue * 640 - 68580) / 127, and the rounded tenths value drives the
rendering. -/
def midiValueToDb (midiValue : Nat) : String :=
  if midiValue = 0 then "-inf"
  else
    let gainTenths : Int := mathRoundDiv ((midiValue : Int) * 640 - 68580) 127
    if 0 < gainTenths then "+" ++ tenthsRender gainTenths
    else tenthsRender gainTenths

/-- formatVariableValue: fader values display as dB strings, everything else
passes through. -/
def formatVariableValue (path : String) (value : DLiveValue) : DLiveValue :=
  if jsEndsWith path ":fader" then
    match value with
    | .num n => .str (midiValueToDb n)
    | v => v
  else value

/-- toVariableId: converts a parameter path to a Companion variable id,
shifting the channel number to 1-based. A non-numeric channel index yields
the JS rendering NaN inside the id; a path without exactly three segments
falls back to replacing the separators. -/
def toVariableId (path : String) : String :=
  let parts := jsSplit path ':'
  if parts.length = 3 then
    let channelType := parts.getD 0 ""
    let parameter := parts.getD 2 ""
    match jsParseInt (parts.getD 1 "") with
    | some n => "dlive_" ++ channelType ++ "_" ++ (n + 1).repr ++ "_" ++ parameter
    | none => "dlive_" ++ channelType ++ "_NaN_" ++ parameter
  else
    "dlive_" ++ jsReplaceChar path ':' '_'

/-! ## Frame extractor -/

/-- Result of extracting one complete MIDI message from the buffer. -/
structure ExtractResult where
  message : List Nat
  bytesConsumed : Nat
deriving DecidableEq, Repr

/-- Builds the extracted message: a frame read at a status byte keeps the
buffer prefix, a running-status frame gets the remembered status byte
prepended. -/
def mkExtracted (isStatus : Bool) (statusByte dataStart expectedLength : Nat)
    (buffer : List Nat) : ExtractResult :=
  if isStatus then
    { message := buffer.take (dataStart + expectedLength),
      bytesConsumed := dataStart + expectedLength }
  else
    { message := statusByte :: (buffer.drop dataStart).take expectedLength,
      bytesConsumed := dataStart + expectedLength }

/-- Final length check of extractMidiMessage: incomplete data yields none. -/
def completeFixed (statusByte dataStart : Nat) (isStatus : Bool)
    (expectedLength : Nat) (buffer : List Nat) : Nat × Option ExtractResult :=
  if buffer.length < dataStart + expectedLength then (statusByte, none)
  else (statusByte, some (mkExtracted isStatus statusByte dataStart expectedLength buffer))

/-- Body of extractMidiMessage once the effective status byte and data start
are known. The first component of the result is the new lastStatusByte. -/
def extractFrom (statusByte dataStart : Nat) (isStatus : Bool)
    (buffer : List Nat) : Nat × Option ExtractResult :=
  let messageType := statusByte &&& 0xf0
  if messageType = 0xf0 then
    match (buffer.drop dataStart).findIdx? (fun b => b == 0xf7) with
    | none => (statusByte, none)
    | some i => completeFixed statusByte dataStart isStatus (i + 1) buffer
  else if messageType = 0xc0 ∨ messageType = 0xd0 then
    completeFixed statusByte dataStart isStatus 1 buffer
  else if messageType = 0x80 ∨ messageType = 0x90 ∨ messageType = 0xa0 ∨
      messageType = 0xb0 ∨ messageType = 0xe0 then
    let expectedLength :=
      if messageType = 0xb0 ∧ dataStart + 1 ≤ buffer.length ∧
          buffer.getD dataStart 0 = 0x63 then 6
      else if messageType = 0x90 ∧ dataStart + 4 ≤ buffer.length ∧
          buffer.getD (dataStart + 2) 0 &&& 0x80 = 0 ∧
          buffer.getD (dataStart + 3) 0 = 0x00 then 4
      else 2
    completeFixed statusByte dataStart isStatus expectedLength buffer
  else
    (statusByte, some { message := [], bytesConsumed := 1 })

/-- extractMidiMessage: extracts one complete MIDI message from the buffer,
handling running status. Returns the updated lastStatusByte (the source
mutates the field before any completeness check) and the extraction result,
none meaning incomplete. -/
def extractMidiMessage (lastStatusByte : Nat) (buffer : List Nat) :
    Nat × Option ExtractResult :=
  match buffer with
  | [] => (lastStatusByte, none)
  | firstByte :: _ =>
    if firstByte &&& 0x80 ≠ 0 then
      extractFrom firstByte 1 true buffer
    else if lastStatusByte = 0 then
      (lastStatusByte, some { message := [], bytesConsumed := 1 })
    else
      extractFrom lastStatusByte 0 false buffer

/-! ## Message interpreter -/

/-- Header check of the channel-name SysEx response. -/
def sysexNameHeaderOk (data : List Nat) : Prop :=
  data.length ≥ 12 ∧ data.getD 0 0 = 0xf0 ∧ data.getD 1 0 = 0x00 ∧
  data.getD 2 0 = 0x00 ∧ data.getD 3 0 = 0x1a ∧ data.getD 4 0 = 0x50 ∧
  data.getD 5 0 = 0x10 ∧ data.getD 6 0 = 0x01 ∧ data.getD 7 0 = 0x00 ∧
  data.getD 9 0 = 0x02 ∧ data.getD (data.length - 1) 0 = 0xf7

instance (data : List Nat) : Decidable (sysexNameHeaderOk data) := by
  unfold sysexNameHeaderOk; infer_instance

/-- Channel name extraction: ASCII-decode (Node ascii masks bit 7), strip
ASCII control characters 0..31, trim whitespace. -/
def decodeChannelName (nameBytes : List Nat) : String :=
  jsTrim (String.mk ((nameBytes.map (fun b => Char.ofNat (b &&& 0x7f))).filter
    (fun c => ¬ c.toNat ≤ 31)))

/-- parseMidiMessage: pure mapping from one complete frame to a semantic
event. -/
def parseMidiMessage (baseMidiChannel : Nat) (data : List Nat) :
    ParsedMidiMessage :=
  match data with
  | [] => { type := .unknown, channelType := none, channelNo := none,
            parameter := none, value := none, raw := data }
  | statusByte :: _ =>
    let messageType := statusByte &&& 0xf0
    let midiChannel := statusByte &&& 0x0f
    if messageType = 0x90 ∨ messageType = 0x80 then
      if data.length < 3 then
        { type := .unknown, channelType := none, channelNo := none,
          parameter := none, value := none, raw := data }
      else
        let note := data.getD 1 0
        let velocity := data.getD 2 0
        if velocity = 0x00 then
          { type := .unknown, channelType := none, channelNo := none,
            parameter := none, value := none, raw := data }
        else
          let ci := getChannelInfoFromMidi baseMidiChannel midiChannel note
          { type := .note, channelType := some ci.1, channelNo := some ci.2,
            parameter := some "mute", value := some (.bool (velocity ≥ 0x40)),
            raw := data }
    else if messageType = 0xb0 then
      if data.length < 3 then
        { type := .unknown, channelType := none, channelNo := none,
          parameter := none, value := none, raw := data }
      else
        let controlNumber := data.getD 1 0
        let controlValue := data.getD 2 0
        if controlNumber = 0x63 ∧ data.length ≥ 7 then
          let channel := data.getD 2 0
          let parameter := data.getD 4 0
          let value := data.getD 6 0
          let ci := getChannelInfoFromMidi baseMidiChannel midiChannel channel
          let paramName :=
            if parameter = 0x17 then "fader"
            else if parameter = 0x18 then "main_assignment"
            else "unknown"
          { type := .control_change, channelType := some ci.1,
            channelNo := some ci.2, parameter := some paramName,
            value := some (.num value), raw := data }
        else
          { type := .control_change, channelType := none, channelNo := none,
            parameter := none, value := some (.num controlValue), raw := data }
    else if messageType = 0xc0 then
      if data.length < 2 then
        { type := .unknown, channelType := none, channelNo := none,
          parameter := none, value := none, raw := data }
      else
        { type := .program_change, channelType := none, channelNo := none,
          parameter := some "scene", value := some (.num (data.getD 1 0)),
          raw := data }
    else if statusByte = 0xf0 then
      if sysexNameHeaderOk data then
        let midiChannelOffset := data.getD 8 0
        let channelNumber := data.getD 10 0
        let nameBytes := (data.drop 11).dropLast
        let channelName := decodeChannelName nameBytes
        let ci := getChannelInfoFromMidi baseMidiChannel midiChannelOffset channelNumber
        { type := .sysex, channelType := some ci.1, channelNo := some ci.2,
          parameter := some "name", value := some (.str channelName), raw := data }
      else
        { type := .sysex, channelType := none, channelNo := none,
          parameter := none, value := none, raw := data }
    else
      { type := .unknown, channelType := none, channelNo := none,
        parameter := none, value := none, raw := data }

/-- constructParameterPath: builds "channelType:channelNo:parameter" when all
three pieces are present (JS also rejects an empty parameter string as falsy). -/
def constructParameterPath (parsed : ParsedMidiMessage) : Option String :=
  match parsed.channelType, parsed.channelNo, parsed.parameter with
  | some ct, some no, some p =>
    if p = "" then none
    else some (channelTypeName ct ++ ":" ++ no.repr ++ ":" ++ p)
  | _, _, _ => none

/-! ## Subscription and cache engine -/

/-- Observable side effects on the Companion host. -/
inductive Effect
  | checkFeedbacksById (ids : List String)
  | setVariableValue (variableId : String) (value : DLiveValue)
  | setVariableDefinitions (defs : List (String × String))
  | requestChannelName (channelType : String) (channelNo : Int)
deriving DecidableEq, Repr

/-- State of a FeedbackHandler instance (plus the module base MIDI channel,
which the handler reads but never writes). -/
structure EngineState where
  baseMidiChannel : Nat
  feedbackMap : List (String × String)
  valueCache : List (String × DLiveValue)
  subscriptions : List (String × Int)
  channelNameSubscriptionList : List String
  midiBuffer : List Nat
  lastStatusByte : Nat
deriving DecidableEq, Repr

/-- Fresh handler state. -/
def initState (baseMidiChannel : Nat) : EngineState :=
  { baseMidiChannel := baseMidiChannel, feedbackMap := [], valueCache := [],
    subscriptions := [], channelNameSubscriptionList := [], midiBuffer := [],
    lastStatusByte := 0 }

/-- Variable definitions recomputed by updateChannelNameVariables: one per
subscribed parameter path, plus one per requested channel name whose channel
still has a live parameter subscription. -/
def channelNameVariableDefs (s : EngineState) : List (String × String) :=
  let parameterVariables := s.subscriptions.map
    (fun p => (toVariableId p.1, "dLive: " ++ p.1))
  let channelsInUse := s.subscriptions.filterMap (fun p =>
    let parts := jsSplit p.1 ':'
    if parts.length = 3 then some (parts.getD 0 "" ++ ":" ++ parts.getD 1 "")
    else none)
  let channelNameVariables := s.channelNameSubscriptionList.filterMap
    (fun channelKey =>
      if channelKey ∈ channelsInUse then
        let parts := jsSplit channelKey ':'
        if parts.length = 2 then
          let channelType := parts.getD 0 ""
          let numberText :=
            match jsParseInt (parts.getD 1 "") with
            | some n => (n + 1).repr
            | none => "NaN"
          some ("dlive_" ++ channelType ++ "_" ++ numberText ++ "_name",
            "dLive: " ++ channelKey ++ ":name")
        else none
      else none)
  parameterVariables ++ channelNameVariables

/-- updateVariables / updateChannelNameVariables: pushes the recomputed
variable definitions to the host. -/
def updateVariables (s : EngineState) : List Effect :=
  [Effect.setVariableDefinitions (channelNameVariableDefs s)]

/-- ensureChannelNameSubscription: requests the channel name once per
channel key. -/
def ensureChannelNameSubscription (s : EngineState) (channelType : String)
    (channelNo : Int) : EngineState × List Effect :=
  let channelKey := channelType ++ ":" ++ channelNo.repr
  if channelKey ∈ s.channelNameSubscriptionList then (s, [])
  else
    ({ s with
        channelNameSubscriptionList := s.channelNameSubscriptionList ++ [channelKey] },
     [Effect.requestChannelName channelType channelNo])

/-- subscribeToParameter: validates the path format; a malformed path is a
logged no-op. A valid path triggers the channel-name side subscription. -/
def subscribeToParameter (s : EngineState) (path : String) :
    EngineState × List Effect :=
  let parts := jsSplit path ':'
  if parts.length ≠ 3 then (s, [])
  else
    match jsParseInt (parts.getD 1 "") with
    | none => (s, [])
    | some channelNo =>
      ensureChannelNameSubscription s (parts.getD 0 "") channelNo

/-- unsubscribeFromParameter: evicts the cached value. -/
def unsubscribeFromParameter (s : EngineState) (path : String) : EngineState :=
  { s with valueCache := eraseEntry s.valueCache path }

/-- notifyFeedbacks: de-duplicates on strict equality with the cached value,
then updates the cache, rechecks every feedback bound to the path and pushes
the formatted display value. -/
def notifyFeedbacks (s : EngineState) (path : String) (newValue : DLiveValue) :
    EngineState × List Effect :=
  let oldValue := lookupEntry s.valueCache path
  if oldValue = some newValue then (s, [])
  else
    let s' := { s with valueCache := setEntry s.valueCache path newValue }
    let updates := (s.feedbackMap.filter (fun p => p.2 = path)).map (fun p => p.1)
    let feedbackEffects :=
      if updates = [] then [] else [Effect.checkFeedbacksById updates]
    (s', feedbackEffects ++
      [Effect.setVariableValue (toVariableId path) (formatVariableValue path newValue)])

/-- removeFeedback: drops the binding, decrements the usage count resolved
through the reverse map when no explicit path is given, and tears down the
subscription and cached value when the count reaches zero. The source guards
with JS falsiness (`if (!actualPath) return`), so both a missing path (no
explicit path and no binding) and the empty-string path make the call a
no-op; `path ?? …` only falls back to the reverse map on a missing argument,
so an explicit empty string is not replaced by the bound path. -/
def removeFeedback (s : EngineState) (id : String) (path : Option String) :
    EngineState × List Effect :=
  let actualPath := match path with
    | some p => some p
    | none => lookupEntry s.feedbackMap id
  match actualPath with
  | none => (s, [])
  | some actualPath =>
    if actualPath = "" then (s, [])
    else
    let s1 := { s with feedbackMap := eraseEntry s.feedbackMap id }
    match lookupEntry s1.subscriptions actualPath with
    | none => (s1, [])
    | some usages =>
      let s2 := { s1 with
                  subscriptions := setEntry s1.subscriptions actualPath (usages - 1) }
      if usages - 1 = 0 then
        let s3 := { s2 with subscriptions := eraseEntry s2.subscriptions actualPath }
        let s4 := unsubscribeFromParameter s3 actualPath
        (s4, updateVariables s4)
      else (s2, [])

/-- Tail of mapFeedback after the existing-binding bookkeeping: record the
binding, bump the usage count of an existing subscription, or create a new
subscription. -/
def mapFeedbackRegister (s : EngineState) (id path : String) :
    EngineState × List Effect :=
  let s1 := { s with feedbackMap := setEntry s.feedbackMap id path }
  match lookupEntry s1.subscriptions path with
  | some usages =>
    if usages > 0 then
      ({ s1 with subscriptions := setEntry s1.subscriptions path (usages + 1) }, [])
    else
      let (s2, e2) := subscribeToParameter s1 path
      let s3 := { s2 with subscriptions := setEntry s2.subscriptions path 1 }
      (s3, e2 ++ updateVariables s3)
  | none =>
    let (s2, e2) := subscribeToParameter s1 path
    let s3 := { s2 with subscriptions := setEntry s2.subscriptions path 1 }
    (s3, e2 ++ updateVariables s3)

/-- mapFeedback: binds a feedback id to a parameter path, unbinding a
previous different path first; binding the same path again is a no-op. -/
def mapFeedback (s : EngineState) (id path : String) :
    EngineState × List Effect :=
  match lookupEntry s.feedbackMap id with
  | some oldPath =>
    if oldPath ≠ path then
      let (s1, e1) := removeFeedback s id (some oldPath)
      let (s2, e2) := mapFeedbackRegister s1 id path
      (s2, e1 ++ e2)
    else (s, [])
  | none => mapFeedbackRegister s id path

/-- ensureSubscription: creates an internal binding when the path is not
already subscribed. -/
def ensureSubscription (s : EngineState) (path : String) :
    EngineState × List Effect :=
  match lookupEntry s.subscriptions path with
  | some usages =>
    if usages > 0 then (s, [])
    else mapFeedback s ("__action_" ++ path) path
  | none => mapFeedback s ("__action_" ++ path) path

/-- getValue: pure cache lookup, none models null. -/
def getValue (s : EngineState) (path : String) : Option DLiveValue :=
  lookupEntry s.valueCache path

/-- updateValue: external authoritative update, only applied while the path
is subscribed. -/
def updateValue (s : EngineState) (path : String) (value : DLiveValue) :
    EngineState × List Effect :=
  if (lookupEntry s.subscriptions path).isSome then
    notifyFeedbacks s path value
  else (s, [])

/-- updateChannelName: pushes a channel-name variable value (1-based). -/
def updateChannelName (channelType : ChannelType) (channelNo : Nat)
    (name : String) : Effect :=
  Effect.setVariableValue
    ("dlive_" ++ channelTypeName channelType ++ "_" ++ (channelNo + 1).repr ++ "_name")
    (.str name)

/-- Body of the processMidiData loop for one parsed message: unknown frames
are skipped, channel names route to updateChannelName, and everything else
feeds the subscription check plus notifyFeedbacks. -/
def handleParsed (s : EngineState) (parsed : ParsedMidiMessage) :
    EngineState × List Effect :=
  if parsed.type = .unknown then (s, [])
  else if parsed.parameter = some "name" ∧ parsed.channelType.isSome ∧
      parsed.channelNo.isSome ∧ (parsed.value.map truthy).getD false then
    (s, [updateChannelName (parsed.channelType.getD .input)
      (parsed.channelNo.getD 0)
      (valueToDisplayString (parsed.value.getD (.str "")))])
  else
    match constructParameterPath parsed with
    | none => (s, [])
    | some path =>
      if (lookupEntry s.subscriptions path).isSome then
        match parsed.value with
        | some v => notifyFeedbacks s path v
        | none => (s, [])
      else (s, [])

/-- Fuel-indexed processMidiData loop: extract, parse and handle messages
until the buffer is empty or holds only an incomplete message. The fuel is
always instantiated above the buffer length, which suffices because each
extraction consumes at least one byte. -/
def processLoop (fuel : Nat) (s : EngineState) :
    EngineState × List ParsedMidiMessage × List Effect :=
  match fuel with
  | 0 => (s, [], [])
  | fuel + 1 =>
    if s.midiBuffer.length = 0 then (s, [], [])
    else
      let er := extractMidiMessage s.lastStatusByte s.midiBuffer
      let s1 := { s with lastStatusByte := er.1 }
      match er.2 with
      | none => (s1, [], [])
      | some res =>
        let s2 := { s1 with midiBuffer := s1.midiBuffer.drop res.bytesConsumed }
        let parsed := parseMidiMessage s.baseMidiChannel res.message
        let step := handleParsed s2 parsed
        let rest := processLoop fuel step.1
        (rest.1, parsed :: rest.2.1, step.2 ++ rest.2.2)

/-- Runs the processing loop to completion on the current buffer. -/
def runBuffer (s : EngineState) :
    EngineState × List ParsedMidiMessage × List Effect :=
  processLoop (s.midiBuffer.length + 1) s

/-- processMidiData: appends the incoming chunk to the reassembly buffer and
processes every complete message. -/
def processMidiData (s : EngineState) (data : List Nat) :
    EngineState × List ParsedMidiMessage × List Effect :=
  runBuffer { s with midiBuffer := s.midiBuffer ++ data }

/-- clear: resets all subscription, cache, name and reassembly state. -/
def clear (s : EngineState) : EngineState × List Effect :=
  let s' := { s with
              feedbackMap := [], valueCache := [], subscriptions := [],
              channelNameSubscriptionList := [], midiBuffer := [], lastStatusByte := 0 }
  (s', updateVariables s')

/-- Semantic content of a parsed message: everything the processing loop
reads except the raw frame bytes; none for unknown events, which the loop
discards. -/
def semOfParsed (p : ParsedMidiMessage) :
    Option (MsgKind × Option ChannelType × Option Nat × Option String × Option DLiveValue) :=
  if p.type = .unknown then none
  else some (p.type, p.channelType, p.channelNo, p.parameter, p.value)

/-- Chunked ingestion: feeds the chunks one at a time, concatenating the
event and effect traces. -/
def processChunks (s : EngineState) (chunks : List (List Nat)) :
    EngineState × List ParsedMidiMessage × List Effect :=
  match chunks with
  | [] => (s, [], [])
  | c :: rest =>
    let r1 := processMidiData s c
    let r2 := processChunks r1.1 rest
    (r2.1, r1.2.1 ++ r2.2.1, r1.2.2 ++ r2.2.2)

/-! ## Remaining definitions for the claims -/

/-- Modelled from the spec: dB = (raw × 64 / 127) − 54, rounded to one
decimal place, raw 0 rendered as the literal -inf, rendered with one decimal
digit and a plus prefix when the rounded result is positive. The rounding to
one decimal place is rounding of dB × 10 = (raw × 640 − 68580) / 127 to the
nearest integer; ties never occur on 0..127 (proved below), so nearest
rounding coincides with the half-up rounding used here. -/
def specFaderDb (v : Nat) : String :=
  if v = 0 then "-inf"
  else
    let tenths : Int := mathRoundDiv ((v : Int) * 640 - 68580) 127
    (if 0 < tenths then "+" else "") ++ tenthsRender tenths

/-- Number of feedback notifications (checkFeedbacksById calls) in an
effect trace. -/
def countFeedbackChecks (effs : List Effect) : Nat :=
  (effs.filter (fun e =>
    match e with
    | .checkFeedbacksById _ => true
    | _ => false)).length

/-- An invalid parameter path: wrong segment count or non-numeric channel
index. -/
def invalidParameterPath (path : String) : Prop :=
  (jsSplit path ':').length ≠ 3 ∨ jsParseInt ((jsSplit path ':').getD 1 "") = none

instance (path : String) : Decidable (invalidParameterPath path) := by
  unfold invalidParameterPath
  infer_instance

/-- Cache-subscription invariant: every cached path is subscribed. -/
def cacheSubscriptionInvariant (s : EngineState) : Prop :=
  ∀ path, (lookupEntry s.valueCache path).isSome →
    (lookupEntry s.subscriptions path).isSome

/-- States reachable from a fresh handler by the public operations. -/
inductive Reachable : EngineState → Prop
  | init (baseMidiChannel : Nat) : Reachable (initState baseMidiChannel)
  | map (s : EngineState) (id path : String) :
      Reachable s → Reachable (mapFeedback s id path).1
  | remove (s : EngineState) (id : String) (path : Option String) :
      Reachable s → Reachable (removeFeedback s id path).1
  | ensure (s : EngineState) (path : String) :
      Reachable s → Reachable (ensureSubscription s path).1
  | process (s : EngineState) (data : List Nat) :
      Reachable s → Reachable (processMidiData s data).1
  | update (s : EngineState) (path : String) (value : DLiveValue) :
      Reachable s → Reachable (updateValue s path value).1
  | clearOp (s : EngineState) :
      Reachable s → Reachable (clear s).1

/-! ## Association-list lemmas -/

theorem lookupEntry_nil (k : String) : lookupEntry ([] : List (String × α)) k = none := rfl

theorem lookupEntry_cons (p : String × α) (m : List (String × α)) (k : String) :
    lookupEntry (p :: m) k = if p.1 = k then some p.2 else lookupEntry m k := by
  by_cases h : p.1 = k <;> simp [lookupEntry, List.find?, h]

theorem lookupEntry_setEntry (m : List (String × α)) (k : String) (v : α) (k' : String) :
    lookupEntry (setEntry m k v) k' = if k = k' then some v else lookupEntry m k' := by
  induction m with
  | nil => by_cases h : k = k' <;> simp [setEntry, lookupEntry_cons, lookupEntry_nil, h]
  | cons p m ih =>
    by_cases hp : p.1 = k
    · rw [setEntry, if_pos hp, lookupEntry_cons, lookupEntry_cons]
      by_cases h : k = k'
      · rw [if_pos h, if_pos h]
      · rw [if_neg h, if_neg h, if_neg (fun hh => h (hp ▸ hh))]
    · rw [setEntry, if_neg hp, lookupEntry_cons, lookupEntry_cons, ih]
      by_cases hq : p.1 = k'
      · rw [if_pos hq, if_neg (fun hh : k = k' => hp (hh ▸ hq)), if_pos hq]
      · rw [if_neg hq, if_neg hq]

theorem lookupEntry_eraseEntry (m : List (String × α)) (k k' : String) :
    lookupEntry (eraseEntry m k) k' =
      if k = k' then none else lookupEntry m k' := by
  induction m with
  | nil => by_cases h : k = k' <;> simp [eraseEntry, lookupEntry_nil, h]
  | cons p m ih =>
    by_cases hp : p.1 = k
    · simp only [eraseEntry, List.filter] at ih ⊢
      rw [show (decide ¬p.1 = k) = false by simp [hp]]
      rw [ih, lookupEntry_cons]
      by_cases h : k = k'
      · rw [if_pos h, if_pos h]
      · rw [if_neg h, if_neg h, if_neg (fun hh => h (hp ▸ hh))]
    · simp only [eraseEntry, List.filter] at ih ⊢
      rw [show (decide ¬p.1 = k) = true by simp [hp]]
      rw [lookupEntry_cons, lookupEntry_cons, ih]
      by_cases h : k = k'
      · rw [if_pos h, if_pos h, if_neg (h ▸ hp)]
      · rw [if_neg h, if_neg h]

/-! ## Extraction progress (claim C10) -/

theorem completeFixed_some_consumed (statusByte dataStart : Nat) (isStatus : Bool)
    (expectedLength : Nat) (buffer : List Nat) (r : ExtractResult)
    (h : (completeFixed statusByte dataStart isStatus expectedLength buffer).2 = some r) :
    r.bytesConsumed = dataStart + expectedLength ∧
      dataStart + expectedLength ≤ buffer.length := by
  unfold completeFixed at h
  by_cases hlen : buffer.length < dataStart + expectedLength
  · rw [if_pos hlen] at h
    exact absurd h (by simp)
  · rw [if_neg hlen] at h
    have h2 : mkExtracted isStatus statusByte dataStart expectedLength buffer = r :=
      Option.some.inj h
    refine ⟨?_, by omega⟩
    rw [← h2]
    unfold mkExtracted
    split_ifs <;> rfl

theorem extractFrom_some_consumed (statusByte dataStart : Nat) (isStatus : Bool)
    (buffer : List Nat) (r : ExtractResult) (hbuf : buffer ≠ [])
    (h : (extractFrom statusByte dataStart isStatus buffer).2 = some r) :
    1 ≤ r.bytesConsumed ∧ r.bytesConsumed ≤ buffer.length := by
  have hlen : 0 < buffer.length := List.length_pos.mpr hbuf
  simp only [extractFrom] at h
  split_ifs at h with h1 h2 h3 h4 h5
  · cases hf : (buffer.drop dataStart).findIdx? (fun b => b == 0xf7) with
    | none => rw [hf] at h; simp at h
    | some i =>
      rw [hf] at h
      have hc := completeFixed_some_consumed _ _ _ _ _ _ h
      omega
  · have hc := completeFixed_some_consumed _ _ _ _ _ _ h
    omega
  · have hc := completeFixed_some_consumed _ _ _ _ _ _ h
    omega
  · have hc := completeFixed_some_consumed _ _ _ _ _ _ h
    omega
  · have hc := completeFixed_some_consumed _ _ _ _ _ _ h
    omega
  · have h6 : ({ message := [], bytesConsumed := 1 } : ExtractResult) = r :=
      Option.some.inj h
    rw [← h6]
    exact ⟨Nat.le_refl 1, hlen⟩

theorem extract_some_consumed (lastStatusByte : Nat) (buffer : List Nat)
    (r : ExtractResult)
    (h : (extractMidiMessage lastStatusByte buffer).2 = some r) :
    1 ≤ r.bytesConsumed ∧ r.bytesConsumed ≤ buffer.length := by
  match buffer with
  | [] => simp [extractMidiMessage] at h
  | firstByte :: rest =>
    simp only [extractMidiMessage] at h
    split_ifs at h with h1 h2
    · exact extractFrom_some_consumed _ _ _ _ _ (List.cons_ne_nil _ _) h
    · have h6 : ({ message := [], bytesConsumed := 1 } : ExtractResult) = r :=
        Option.some.inj h
      rw [← h6]
      exact ⟨Nat.le_refl 1, by simp⟩
    · exact extractFrom_some_consumed _ _ _ _ _ (List.cons_ne_nil _ _) h

/-- C10: whenever extractMidiMessage returns a message, it consumed at least
one byte and at most the whole buffer, so each loop iteration of
processMidiData strictly shrinks the pending buffer. -/
theorem claim_C10_extraction_progress (lastStatusByte : Nat) (buffer : List Nat)
    (r : ExtractResult)
    (h : (extractMidiMessage lastStatusByte buffer).2 = some r) :
    1 ≤ r.bytesConsumed ∧ r.bytesConsumed ≤ buffer.length ∧
      (buffer.drop r.bytesConsumed).length < buffer.length := by
  have hc := extract_some_consumed lastStatusByte buffer r h
  refine ⟨hc.1, hc.2, ?_⟩
  rw [List.length_drop]
  omega

/-- Witness for C10 at a concrete extraction. -/
theorem claim_C10_extraction_progress_witness :
    1 ≤ (3 : Nat) ∧
      ((extractMidiMessage 0 [0x90, 0x00, 0x7f]).2 = some
        { message := [0x90, 0x00, 0x7f], bytesConsumed := 3 }) ∧
      (1 ≤ (3 : Nat) ∧ 3 ≤ ([0x90, 0x00, 0x7f] : List Nat).length ∧
        (([0x90, 0x00, 0x7f] : List Nat).drop 3).length <
          ([0x90, 0x00, 0x7f] : List Nat).length) :=
  ⟨by decide, by decide,
    claim_C10_extraction_progress 0 [0x90, 0x00, 0x7f]
      { message := [0x90, 0x00, 0x7f], bytesConsumed := 3 } (by decide)⟩

/-! ## Value formatter (claim C4) -/

/-- C4: for every raw fader value below 128 the formatter agrees with the
spec formula (literal -inf at 0, otherwise (v × 64 / 127) − 54 rounded to
one decimal place with one decimal digit and a plus prefix when positive);
the rounding never lands on a tie, so half-up rounding equals rounding to
nearest; 127 renders +10.0 and 107 renders -0.1. -/
theorem claim_C4_fader_value_formatter (v : Nat) (hv : v < 128) :
    midiValueToDb v = specFaderDb v ∧
    (¬∃ t : Int, 2 * ((v : Int) * 640 - 68580) = 127 * (2 * t + 1)) ∧
    midiValueToDb 0 = "-inf" ∧
    midiValueToDb 127 = "+10.0" ∧
    midiValueToDb 107 = "-0.1" := by
  refine ⟨?_, ?_, by decide, by decide, by decide⟩
  · revert hv
    revert v
    decide
  · rintro ⟨t, ht⟩
    omega

/-- Witness for C4 at the raw value 100. -/
theorem claim_C4_fader_value_formatter_witness :
    (100 : Nat) < 128 ∧ midiValueToDb 100 = specFaderDb 100 ∧
      midiValueToDb 100 = "-3.6" :=
  ⟨by decide, (claim_C4_fader_value_formatter 100 (by decide)).1, by decide⟩

/-! ## Channel address resolver (claim C8) -/

/-- C8: at channel offset 4 the resolver follows the documented sub-ranges
(all bounds inclusive), and at any offset outside 0..4 it falls back to an
input channel with the untouched index. -/
theorem claim_C8_channel_address_table (baseMidiChannel midiChannel v : Nat) :
    ((midiChannel : Int) - (baseMidiChannel : Int) = 4 →
      (v ≤ 0x0f → getChannelInfoFromMidi baseMidiChannel midiChannel v = (.mono_fx_send, v)) ∧
      (0x10 ≤ v ∧ v ≤ 0x1f →
        getChannelInfoFromMidi baseMidiChannel midiChannel v = (.stereo_fx_send, v - 0x10)) ∧
      (0x20 ≤ v ∧ v ≤ 0x2f →
        getChannelInfoFromMidi baseMidiChannel midiChannel v = (.fx_return, v - 0x20)) ∧
      (0x30 ≤ v ∧ v ≤ 0x35 →
        getChannelInfoFromMidi baseMidiChannel midiChannel v = (.main, v - 0x30)) ∧
      (0x36 ≤ v ∧ v ≤ 0x4d →
        getChannelInfoFromMidi baseMidiChannel midiChannel v = (.dca, v - 0x36)) ∧
      (0x4e ≤ v ∧ v ≤ 0x55 →
        getChannelInfoFromMidi baseMidiChannel midiChannel v = (.mute_group, v - 0x4e)) ∧
      (0x56 ≤ v ∧ v ≤ 0x5d →
        getChannelInfoFromMidi baseMidiChannel midiChannel v = (.stereo_ufx_send, v - 0x56)) ∧
      (0x5e ≤ v ∧ v ≤ 0x65 →
        getChannelInfoFromMidi baseMidiChannel midiChannel v = (.stereo_ufx_return, v - 0x5e))) ∧
    ((midiChannel : Int) - (baseMidiChannel : Int) < 0 ∨
        4 < (midiChannel : Int) - (baseMidiChannel : Int) →
      getChannelInfoFromMidi baseMidiChannel midiChannel v = (.input, v)) := by
  constructor
  · intro h4
    have key : getChannelInfoFromMidi baseMidiChannel midiChannel v =
        (if 0x5e ≤ v ∧ v ≤ 0x65 then (.stereo_ufx_return, v - 0x5e)
         else if 0x56 ≤ v ∧ v ≤ 0x5d then (.stereo_ufx_send, v - 0x56)
         else if 0x4e ≤ v ∧ v ≤ 0x55 then (.mute_group, v - 0x4e)
         else if 0x36 ≤ v ∧ v ≤ 0x4d then (.dca, v - 0x36)
         else if 0x30 ≤ v ∧ v ≤ 0x35 then (.main, v - 0x30)
         else if 0x20 ≤ v ∧ v ≤ 0x2f then (.fx_return, v - 0x20)
         else if 0x10 ≤ v ∧ v ≤ 0x1f then (.stereo_fx_send, v - 0x10)
         else (.mono_fx_send, v)) := by
      simp only [getChannelInfoFromMidi, h4]
      norm_num
    rw [key]
    refine ⟨?_, ?_, ?_, ?_, ?_, ?_, ?_, ?_⟩ <;>
      · intro hr
        split_ifs <;> first | rfl | (exfalso; omega)
  · intro hout
    have h0 : ¬((midiChannel : Int) - (baseMidiChannel : Int) = 0) := by omega
    have h1 : ¬((midiChannel : Int) - (baseMidiChannel : Int) = 1) := by omega
    have h2 : ¬((midiChannel : Int) - (baseMidiChannel : Int) = 2) := by omega
    have h3 : ¬((midiChannel : Int) - (baseMidiChannel : Int) = 3) := by omega
    have h4 : ¬((midiChannel : Int) - (baseMidiChannel : Int) = 4) := by omega
    simp only [getChannelInfoFromMidi]
    rw [if_neg h0, if_neg h1, if_neg h2, if_neg h3, if_neg h4]

/-- Witness for C8: concrete resolutions at offset 4 and outside 0..4. -/
theorem claim_C8_channel_address_table_witness :
    getChannelInfoFromMidi 0 4 0x36 = (.dca, 0) ∧
      getChannelInfoFromMidi 0 9 5 = (.input, 5) := by
  have h1 := (claim_C8_channel_address_table 0 4 0x36).1 (by norm_num)
  have h2 := (claim_C8_channel_address_table 0 9 5).2 (by norm_num)
  have h3 := h1.2.2.2.2.1 (by omega)
  exact ⟨h3, h2⟩

/-! ## Concrete ingestion traces (claims C2 and C3) -/

/-- C2: with one consumer bound to input:0:mute and no cached value, the
bytes 90 00 7F cache true and raise exactly one feedback notification
(naming exactly the bound consumer) plus the display update; the identical
bytes again raise no notification and leave the cache unchanged. -/
theorem claim_C2_mute_dedup :
    (lookupEntry (mapFeedback (initState 0) "fb1" "input:0:mute").1.subscriptions
        "input:0:mute" = some 1) ∧
    (getValue (mapFeedback (initState 0) "fb1" "input:0:mute").1 "input:0:mute" = none) ∧
    (getValue (processMidiData (mapFeedback (initState 0) "fb1" "input:0:mute").1
        [0x90, 0x00, 0x7f]).1 "input:0:mute" = some (.bool true)) ∧
    ((processMidiData (mapFeedback (initState 0) "fb1" "input:0:mute").1
        [0x90, 0x00, 0x7f]).2.2 =
      [Effect.checkFeedbacksById ["fb1"],
       Effect.setVariableValue "dlive_input_1_mute" (.bool true)]) ∧
    (countFeedbackChecks (processMidiData (mapFeedback (initState 0) "fb1" "input:0:mute").1
        [0x90, 0x00, 0x7f]).2.2 = 1) ∧
    ((processMidiData (processMidiData (mapFeedback (initState 0) "fb1" "input:0:mute").1
        [0x90, 0x00, 0x7f]).1 [0x90, 0x00, 0x7f]).2.2 = []) ∧
    ((processMidiData (processMidiData (mapFeedback (initState 0) "fb1" "input:0:mute").1
        [0x90, 0x00, 0x7f]).1 [0x90, 0x00, 0x7f]).1.valueCache =
      (processMidiData (mapFeedback (initState 0) "fb1" "input:0:mute").1
        [0x90, 0x00, 0x7f]).1.valueCache) := by
  decide

/-- C3: with a consumer bound to input:0:fader, the extended-parameter bytes
B0 63 00 62 17 06 64 cache the raw value 100 and set the derived display
variable to the string -3.6. -/
theorem claim_C3_fader_nrpn :
    (getValue (processMidiData (mapFeedback (initState 0) "fb2" "input:0:fader").1
        [0xb0, 0x63, 0x00, 0x62, 0x17, 0x06, 0x64]).1 "input:0:fader" =
      some (.num 100)) ∧
    ((processMidiData (mapFeedback (initState 0) "fb2" "input:0:fader").1
        [0xb0, 0x63, 0x00, 0x62, 0x17, 0x06, 0x64]).2.2 =
      [Effect.checkFeedbacksById ["fb2"],
       Effect.setVariableValue "dlive_input_1_fader" (.str "-3.6")]) := by
  decide

/-! ## Reference-counted unbinding (claim C6) -/

/-- C6 (amended): with two distinct consumers bound to the same nonempty path
(usage 2) and a cached value, unbinding one consumer by id leaves a usage-1
subscription, the cached value and the other binding intact; unbinding the
second consumer removes the subscription, evicts the cache and makes reads
return absent. The nonemptiness restriction is forced by the source's JS
falsiness guard: at the program-reachable empty-string path, unbinding
without an explicit path is a no-op and the usage count stays 2
(claim_C6_counterexample_empty_path). -/
theorem claim_C6_two_consumer_unbind (s : EngineState) (a b p : String) (v : DLiveValue)
    (hab : a ≠ b)
    (hp : p ≠ "")
    (ha : lookupEntry s.feedbackMap a = some p)
    (hb : lookupEntry s.feedbackMap b = some p)
    (hs : lookupEntry s.subscriptions p = some 2)
    (hv : lookupEntry s.valueCache p = some v) :
    lookupEntry (removeFeedback s a none).1.subscriptions p = some 1 ∧
    lookupEntry (removeFeedback s a none).1.valueCache p = some v ∧
    lookupEntry (removeFeedback s a none).1.feedbackMap b = some p ∧
    lookupEntry (removeFeedback (removeFeedback s a none).1 b none).1.subscriptions p = none ∧
    getValue (removeFeedback (removeFeedback s a none).1 b none).1 p = none := by
  have e1 : removeFeedback s a none =
      ({ s with feedbackMap := eraseEntry s.feedbackMap a,
                subscriptions := setEntry s.subscriptions p 1 }, []) := by
    simp only [removeFeedback, ha, hs]
    rw [if_neg hp]
    norm_num
  have c1 : lookupEntry (removeFeedback s a none).1.subscriptions p = some 1 := by
    rw [e1]
    simp [lookupEntry_setEntry]
  have c3 : lookupEntry (removeFeedback s a none).1.feedbackMap b = some p := by
    rw [e1]
    simp only [lookupEntry_eraseEntry, if_neg hab]
    exact hb
  have c2 : lookupEntry (removeFeedback s a none).1.valueCache p = some v := by
    rw [e1]
    exact hv
  have e2 : (removeFeedback (removeFeedback s a none).1 b none).1 =
      { (removeFeedback s a none).1 with
          feedbackMap := eraseEntry (removeFeedback s a none).1.feedbackMap b,
          subscriptions :=
            eraseEntry (setEntry (removeFeedback s a none).1.subscriptions p 0) p,
          valueCache := eraseEntry (removeFeedback s a none).1.valueCache p } := by
    rw [removeFeedback]
    simp only [c3, c1, unsubscribeFromParameter]
    rw [if_neg hp]
    norm_num
  refine ⟨c1, c2, c3, ?_, ?_⟩
  · rw [e2]
    simp [lookupEntry_eraseEntry]
  · rw [getValue, e2]
    simp [lookupEntry_eraseEntry]

/-- Witness for C6 on a concretely built two-consumer state. -/
theorem claim_C6_two_consumer_unbind_witness :
    lookupEntry (removeFeedback (updateValue ((mapFeedback
        ((mapFeedback (initState 0) "a" "input:0:mute").1) "b" "input:0:mute").1)
        "input:0:mute" (.bool true)).1 "a" none).1.subscriptions "input:0:mute" =
      some 1 :=
  (claim_C6_two_consumer_unbind _ "a" "b" "input:0:mute" (.bool true)
    (by decide) (by decide) (by decide) (by decide) (by decide) (by decide)).1

/-- C6 counterexample at the empty-string path: the claim's hypotheses are
program-reachable with path "" (binding never validates the path, so two
consumers can be bound to "" and a value cached for it), yet unbinding one
consumer without an explicit path is a no-op — `removeFeedback` resolves
actualPath = "" and returns at the JS falsiness guard — so the subscription
keeps usage count 2 instead of dropping to 1 and the binding stays. -/
theorem claim_C6_counterexample_empty_path :
    lookupEntry ((updateValue ((mapFeedback ((mapFeedback (initState 0)
        "a" "").1) "b" "").1) "" (.bool true)).1).feedbackMap "a" = some "" ∧
    lookupEntry ((updateValue ((mapFeedback ((mapFeedback (initState 0)
        "a" "").1) "b" "").1) "" (.bool true)).1).feedbackMap "b" = some "" ∧
    lookupEntry ((updateValue ((mapFeedback ((mapFeedback (initState 0)
        "a" "").1) "b" "").1) "" (.bool true)).1).subscriptions "" = some 2 ∧
    lookupEntry ((updateValue ((mapFeedback ((mapFeedback (initState 0)
        "a" "").1) "b" "").1) "" (.bool true)).1).valueCache "" =
      some (.bool true) ∧
    removeFeedback ((updateValue ((mapFeedback ((mapFeedback (initState 0)
        "a" "").1) "b" "").1) "" (.bool true)).1) "a" none =
      (((updateValue ((mapFeedback ((mapFeedback (initState 0)
        "a" "").1) "b" "").1) "" (.bool true)).1), []) := by
  decide

/-! ## Invalid path binding (claim C9) -/

/-- Counterexample to C9 as stated: binding a consumer to the invalid path
input:x:mute (non-numeric channel index) is not a no-op; it creates a
subscription-table entry. -/
theorem claim_C9_counterexample_subscription_created :
    invalidParameterPath "input:x:mute" ∧
    lookupEntry (initState 0).subscriptions "input:x:mute" = none ∧
    lookupEntry (mapFeedback (initState 0) "fb1" "input:x:mute").1.subscriptions
      "input:x:mute" = some 1 := by
  decide

theorem subscribeToParameter_invalid (s : EngineState) (p : String)
    (h : invalidParameterPath p) : subscribeToParameter s p = (s, []) := by
  by_cases hl : (jsSplit p ':').length ≠ 3
  · simp only [subscribeToParameter]
    rw [if_pos hl]
  · have hpi : jsParseInt ((jsSplit p ':').getD 1 "") = none := by
      rcases h with h | h
      · exact absurd h hl
      · exact h
    simp only [subscribeToParameter]
    rw [if_neg hl, hpi]

/-- C9 amended: binding a fresh consumer to a malformed path is total (the
model is a total function) and skips the parameter lookup entirely: it sends
no channel-name request, leaves the channel-name subscriptions and the value
cache untouched; but contrary to the claim as stated it still records the
binding and creates a usage-counted subscription entry. -/
theorem claim_C9_invalid_path_binding (s : EngineState) (c p : String)
    (hinv : invalidParameterPath p)
    (hc : lookupEntry s.feedbackMap c = none) :
    (mapFeedback s c p).1.valueCache = s.valueCache ∧
    (mapFeedback s c p).1.channelNameSubscriptionList = s.channelNameSubscriptionList ∧
    (∀ ct no, Effect.requestChannelName ct no ∉ (mapFeedback s c p).2) ∧
    (∃ u : Int, lookupEntry (mapFeedback s c p).1.subscriptions p = some u ∧ 0 < u) := by
  have hreg : mapFeedback s c p = mapFeedbackRegister s c p := by
    rw [mapFeedback, hc]
  rw [hreg, mapFeedbackRegister]
  have hsp : ({ s with feedbackMap := setEntry s.feedbackMap c p }).subscriptions =
      s.subscriptions := rfl
  cases hsub : lookupEntry s.subscriptions p with
  | some u =>
    simp only [hsp, hsub]
    by_cases hu : u > 0
    · rw [if_pos hu]
      refine ⟨rfl, rfl, by simp, u + 1, ?_, by omega⟩
      simp [lookupEntry_setEntry]
    · rw [if_neg hu]
      rw [subscribeToParameter_invalid _ _ hinv]
      refine ⟨rfl, rfl, ?_, 1, ?_, by omega⟩
      · intro ct no
        simp [updateVariables]
      · simp [lookupEntry_setEntry]
  | none =>
    simp only [hsp, hsub]
    rw [subscribeToParameter_invalid _ _ hinv]
    refine ⟨rfl, rfl, ?_, 1, ?_, by omega⟩
    · intro ct no
      simp [updateVariables]
    · simp [lookupEntry_setEntry]

/-- Witness for the amended C9 on a concrete invalid path. -/
theorem claim_C9_invalid_path_binding_witness :
    (mapFeedback (initState 0) "fb1" "input:x:mute").1.valueCache =
      (initState 0).valueCache :=
  (claim_C9_invalid_path_binding (initState 0) "fb1" "input:x:mute"
    (by decide) (by decide)).1

/-! ## Cache-subscription invariant (claim C7) -/

theorem isSome_lookup_setEntry (m : List (String × α)) (k : String) (v : α)
    (q : String) (h : (lookupEntry m q).isSome) :
    (lookupEntry (setEntry m k v) q).isSome := by
  rw [lookupEntry_setEntry]
  by_cases hkq : k = q
  · rw [if_pos hkq]; rfl
  · rw [if_neg hkq]; exact h

theorem isSome_lookup_setEntry_elim (m : List (String × α)) (k : String) (v : α)
    (q : String) (h : (lookupEntry (setEntry m k v) q).isSome) :
    k = q ∨ (lookupEntry m q).isSome := by
  rw [lookupEntry_setEntry] at h
  by_cases hkq : k = q
  · exact Or.inl hkq
  · rw [if_neg hkq] at h; exact Or.inr h

theorem notifyFeedbacks_invariant (s : EngineState) (path : String) (v : DLiveValue)
    (hinv : cacheSubscriptionInvariant s)
    (hsub : (lookupEntry s.subscriptions path).isSome) :
    cacheSubscriptionInvariant (notifyFeedbacks s path v).1 := by
  rw [notifyFeedbacks]
  split_ifs with hold
  · exact hinv
  · intro q hq
    simp only at hq ⊢
    rcases isSome_lookup_setEntry_elim _ _ _ _ hq with h | h
    · exact h ▸ hsub
    · exact hinv q h

theorem subscribeToParameter_fields (s : EngineState) (path : String) :
    (subscribeToParameter s path).1.valueCache = s.valueCache ∧
    (subscribeToParameter s path).1.subscriptions = s.subscriptions := by
  simp only [subscribeToParameter]
  split_ifs with h1
  · exact ⟨rfl, rfl⟩
  · cases hpi : jsParseInt ((jsSplit path ':').getD 1 "") with
    | none => exact ⟨rfl, rfl⟩
    | some n =>
      simp only [ensureChannelNameSubscription]
      split_ifs with h2
      · exact ⟨rfl, rfl⟩
      · exact ⟨rfl, rfl⟩

theorem subscribeToParameter_state (s : EngineState) (path : String) :
    ∃ L E, subscribeToParameter s path =
      ({ s with channelNameSubscriptionList := L }, E) := by
  simp only [subscribeToParameter]
  split_ifs with h1
  · exact ⟨s.channelNameSubscriptionList, [], rfl⟩
  · cases hpi : jsParseInt ((jsSplit path ':').getD 1 "") with
    | none => exact ⟨s.channelNameSubscriptionList, [], rfl⟩
    | some n =>
      simp only [ensureChannelNameSubscription]
      split_ifs with h2
      · exact ⟨s.channelNameSubscriptionList, [], rfl⟩
      · exact ⟨_, _, rfl⟩

theorem mapFeedbackRegister_invariant (s : EngineState) (id path : String)
    (hinv : cacheSubscriptionInvariant s) :
    cacheSubscriptionInvariant (mapFeedbackRegister s id path).1 := by
  rw [mapFeedbackRegister]
  have hs1 : cacheSubscriptionInvariant { s with feedbackMap := setEntry s.feedbackMap id path } :=
    fun q hq => hinv q hq
  obtain ⟨L, E, hLE⟩ := subscribeToParameter_state
    { s with feedbackMap := setEntry s.feedbackMap id path } path
  cases hsub : lookupEntry ({ s with feedbackMap := setEntry s.feedbackMap id path }).subscriptions path with
  | some u =>
    by_cases hu : u > 0
    · simp only [hsub, if_pos hu]
      intro q hq
      simp only at hq ⊢
      exact isSome_lookup_setEntry _ _ _ _ (hs1 q hq)
    · simp only [hsub, if_neg hu, hLE]
      intro q hq
      simp only at hq ⊢
      exact isSome_lookup_setEntry _ _ _ _ (hs1 q hq)
  | none =>
    simp only [hsub, hLE]
    intro q hq
    simp only at hq ⊢
    exact isSome_lookup_setEntry _ _ _ _ (hs1 q hq)

theorem removeFeedback_some_invariant (s : EngineState) (id ap : String)
    (hinv : cacheSubscriptionInvariant s) :
    cacheSubscriptionInvariant (removeFeedback s id (some ap)).1 := by
  simp only [removeFeedback]
  by_cases hemp : ap = ""
  · rw [if_pos hemp]
    exact hinv
  rw [if_neg hemp]
  cases hsub : lookupEntry s.subscriptions ap with
  | none => exact fun q hq => hinv q hq
  | some usages =>
    simp only
    split_ifs with hz
    · intro q hq
      simp only [unsubscribeFromParameter] at hq ⊢
      rw [lookupEntry_eraseEntry] at hq ⊢
      by_cases hpq : ap = q
      · rw [if_pos hpq] at hq; simp at hq
      · rw [if_neg hpq] at hq ⊢
        rw [lookupEntry_setEntry, if_neg hpq]
        exact hinv q hq
    · intro q hq
      simp only at hq ⊢
      exact isSome_lookup_setEntry _ _ _ _ (hinv q hq)

theorem removeFeedback_invariant (s : EngineState) (id : String) (path : Option String)
    (hinv : cacheSubscriptionInvariant s) :
    cacheSubscriptionInvariant (removeFeedback s id path).1 := by
  cases path with
  | some p => exact removeFeedback_some_invariant s id p hinv
  | none =>
    cases hfm : lookupEntry s.feedbackMap id with
    | none =>
      have heq : removeFeedback s id none = (s, []) := by
        simp only [removeFeedback, hfm]
      rw [heq]
      exact hinv
    | some q =>
      have heq : removeFeedback s id none = removeFeedback s id (some q) := by
        simp only [removeFeedback, hfm]
      rw [heq]
      exact removeFeedback_some_invariant s id q hinv

theorem mapFeedback_invariant (s : EngineState) (id path : String)
    (hinv : cacheSubscriptionInvariant s) :
    cacheSubscriptionInvariant (mapFeedback s id path).1 := by
  rw [mapFeedback]
  cases hex : lookupEntry s.feedbackMap id with
  | none => exact mapFeedbackRegister_invariant _ _ _ hinv
  | some oldPath =>
    by_cases hdiff : oldPath ≠ path
    · simp only [if_pos hdiff]
      exact mapFeedbackRegister_invariant _ id path
        (removeFeedback_invariant _ id (some oldPath) hinv)
    · simp only [if_neg hdiff]
      exact hinv

theorem handleParsed_invariant (s : EngineState) (parsed : ParsedMidiMessage)
    (hinv : cacheSubscriptionInvariant s) :
    cacheSubscriptionInvariant (handleParsed s parsed).1 := by
  rw [handleParsed]
  split_ifs with h1 h2
  · exact hinv
  · exact hinv
  · cases hp : constructParameterPath parsed with
    | none => exact hinv
    | some path =>
      simp only
      split_ifs with hsub
      · cases hv : parsed.value with
        | none => exact hinv
        | some v => exact notifyFeedbacks_invariant _ _ _ hinv hsub
      · exact hinv

theorem processLoop_invariant (fuel : Nat) (s : EngineState)
    (hinv : cacheSubscriptionInvariant s) :
    cacheSubscriptionInvariant (processLoop fuel s).1 := by
  induction fuel generalizing s with
  | zero => exact hinv
  | succ fuel ih =>
    rw [processLoop]
    split_ifs with h0
    · exact hinv
    · cases hr : (extractMidiMessage s.lastStatusByte s.midiBuffer).2 with
      | none => simp only [hr]; exact fun q hq => hinv q hq
      | some res =>
        simp only [hr]
        exact ih _ (handleParsed_invariant _ _ (fun q hq => hinv q hq))

/-- C7: in every state reachable by the public operations, every cached path
has a live subscription entry, so getValue never serves a value for an
unsubscribed path. -/
theorem claim_C7_cache_subscription_invariant (s : EngineState)
    (hreach : Reachable s) :
    cacheSubscriptionInvariant s ∧
    (∀ path, (getValue s path).isSome →
      (lookupEntry s.subscriptions path).isSome) := by
  have hinv : cacheSubscriptionInvariant s := by
    induction hreach with
    | init base => intro q hq; simp [initState, lookupEntry_nil] at hq
    | map s id path hr ih => exact mapFeedback_invariant _ _ _ ih
    | remove s id path hr ih => exact removeFeedback_invariant _ _ _ ih
    | ensure s path hr ih =>
      rw [ensureSubscription]
      cases hsub : lookupEntry s.subscriptions path with
      | some u =>
        by_cases hu : u > 0
        · simpa [hsub, hu] using ih
        · simp only [hsub, if_neg hu]
          exact mapFeedback_invariant _ _ _ ih
      | none =>
        simp only [hsub]
        exact mapFeedback_invariant _ _ _ ih
    | process s data hr ih =>
      rw [processMidiData, runBuffer]
      exact processLoop_invariant _ _ (fun q hq => ih q hq)
    | update s path value hr ih =>
      rw [updateValue]
      split_ifs with hsub
      · exact notifyFeedbacks_invariant _ _ _ ih hsub
      · exact ih
    | clearOp s hr ih =>
      intro q hq
      simp [clear, lookupEntry_nil] at hq
  exact ⟨hinv, fun path h => hinv path h⟩

/-- Witness for C7 on a concretely reachable state with a cached value. -/
theorem claim_C7_cache_subscription_invariant_witness :
    (lookupEntry (updateValue ((mapFeedback (initState 0) "f" "input:0:mute").1)
        "input:0:mute" (.bool true)).1.subscriptions "input:0:mute").isSome :=
  (claim_C7_cache_subscription_invariant _
    (Reachable.update _ "input:0:mute" (.bool true)
      (Reachable.map _ "f" "input:0:mute" (Reachable.init 0)))).2
    "input:0:mute" (by decide)

/-! ## Loop plumbing: the handler never touches the reassembly state -/

theorem notifyFeedbacks_fields (s : EngineState) (path : String) (v : DLiveValue) :
    (notifyFeedbacks s path v).1.midiBuffer = s.midiBuffer ∧
    (notifyFeedbacks s path v).1.lastStatusByte = s.lastStatusByte ∧
    (notifyFeedbacks s path v).1.baseMidiChannel = s.baseMidiChannel := by
  rw [notifyFeedbacks]
  split_ifs <;> exact ⟨rfl, rfl, rfl⟩

theorem handleParsed_fields (s : EngineState) (parsed : ParsedMidiMessage) :
    (handleParsed s parsed).1.midiBuffer = s.midiBuffer ∧
    (handleParsed s parsed).1.lastStatusByte = s.lastStatusByte ∧
    (handleParsed s parsed).1.baseMidiChannel = s.baseMidiChannel := by
  rw [handleParsed]
  split_ifs with h1 h2
  · exact ⟨rfl, rfl, rfl⟩
  · exact ⟨rfl, rfl, rfl⟩
  · cases constructParameterPath parsed with
    | none => exact ⟨rfl, rfl, rfl⟩
    | some path =>
      simp only
      split_ifs with h3
      · cases parsed.value with
        | none => exact ⟨rfl, rfl, rfl⟩
        | some v => exact notifyFeedbacks_fields _ _ _
      · exact ⟨rfl, rfl, rfl⟩

theorem processLoop_congr (n : Nat) :
    ∀ (fuelA fuelB : Nat) (s : EngineState), s.midiBuffer.length ≤ n →
      s.midiBuffer.length < fuelA → s.midiBuffer.length < fuelB →
      processLoop fuelA s = processLoop fuelB s := by
  induction n with
  | zero =>
    intro fuelA fuelB s hn hA hB
    obtain ⟨kA, rfl⟩ : ∃ k, fuelA = k + 1 := ⟨fuelA - 1, by omega⟩
    obtain ⟨kB, rfl⟩ : ∃ k, fuelB = k + 1 := ⟨fuelB - 1, by omega⟩
    have h0 : s.midiBuffer.length = 0 := by omega
    rw [processLoop, processLoop, if_pos h0, if_pos h0]
  | succ n ih =>
    intro fuelA fuelB s hn hA hB
    obtain ⟨kA, rfl⟩ : ∃ k, fuelA = k + 1 := ⟨fuelA - 1, by omega⟩
    obtain ⟨kB, rfl⟩ : ∃ k, fuelB = k + 1 := ⟨fuelB - 1, by omega⟩
    rw [processLoop, processLoop]
    by_cases h0 : s.midiBuffer.length = 0
    · rw [if_pos h0, if_pos h0]
    · rw [if_neg h0, if_neg h0]
      cases hr : (extractMidiMessage s.lastStatusByte s.midiBuffer).2 with
      | none => simp only [hr]
      | some res =>
        simp only [hr]
        have hcons := extract_some_consumed _ _ _ hr
        have hfields := handleParsed_fields
          { s with lastStatusByte := (extractMidiMessage s.lastStatusByte s.midiBuffer).1,
                   midiBuffer := s.midiBuffer.drop res.bytesConsumed }
          (parseMidiMessage s.baseMidiChannel res.message)
        have hlen : (handleParsed
            { s with lastStatusByte := (extractMidiMessage s.lastStatusByte s.midiBuffer).1,
                     midiBuffer := s.midiBuffer.drop res.bytesConsumed }
            (parseMidiMessage s.baseMidiChannel res.message)).1.midiBuffer.length =
            s.midiBuffer.length - res.bytesConsumed := by
          rw [hfields.1]
          simp [List.length_drop]
        have hrec := ih kA kB
          (handleParsed
            { s with lastStatusByte := (extractMidiMessage s.lastStatusByte s.midiBuffer).1,
                     midiBuffer := s.midiBuffer.drop res.bytesConsumed }
            (parseMidiMessage s.baseMidiChannel res.message)).1
          (by omega) (by omega) (by omega)
        rw [hrec]

theorem runBuffer_empty (s : EngineState) (h : s.midiBuffer = []) :
    runBuffer s = (s, [], []) := by
  rw [runBuffer, processLoop]
  rw [if_pos (by rw [h]; rfl)]

theorem runBuffer_stall (s : EngineState)
    (h : (extractMidiMessage s.lastStatusByte s.midiBuffer).2 = none) :
    runBuffer s =
      ({ s with lastStatusByte := (extractMidiMessage s.lastStatusByte s.midiBuffer).1 },
       [], []) := by
  rw [runBuffer, processLoop]
  by_cases h0 : s.midiBuffer.length = 0
  · rw [if_pos h0]
    have hb : s.midiBuffer = [] := List.length_eq_zero.mp h0
    have hls : (extractMidiMessage s.lastStatusByte s.midiBuffer).1 = s.lastStatusByte := by
      rw [hb]
      rfl
    rw [hls]
  · rw [if_neg h0]
    simp only [h]

theorem runBuffer_step (s : EngineState) (res : ExtractResult)
    (h : (extractMidiMessage s.lastStatusByte s.midiBuffer).2 = some res) :
    runBuffer s =
      ((runBuffer (handleParsed
          { s with lastStatusByte := (extractMidiMessage s.lastStatusByte s.midiBuffer).1,
                   midiBuffer := s.midiBuffer.drop res.bytesConsumed }
          (parseMidiMessage s.baseMidiChannel res.message)).1).1,
       parseMidiMessage s.baseMidiChannel res.message ::
         (runBuffer (handleParsed
          { s with lastStatusByte := (extractMidiMessage s.lastStatusByte s.midiBuffer).1,
                   midiBuffer := s.midiBuffer.drop res.bytesConsumed }
          (parseMidiMessage s.baseMidiChannel res.message)).1).2.1,
       (handleParsed
          { s with lastStatusByte := (extractMidiMessage s.lastStatusByte s.midiBuffer).1,
                   midiBuffer := s.midiBuffer.drop res.bytesConsumed }
          (parseMidiMessage s.baseMidiChannel res.message)).2 ++
         (runBuffer (handleParsed
          { s with lastStatusByte := (extractMidiMessage s.lastStatusByte s.midiBuffer).1,
                   midiBuffer := s.midiBuffer.drop res.bytesConsumed }
          (parseMidiMessage s.baseMidiChannel res.message)).1).2.2) := by
  have hne : s.midiBuffer ≠ [] := by
    intro hb
    rw [hb] at h
    simp [extractMidiMessage] at h
  have h0 : ¬ s.midiBuffer.length = 0 := by
    intro hl
    exact hne (List.length_eq_zero.mp hl)
  have hcons := extract_some_consumed _ _ _ h
  rw [runBuffer, processLoop, if_neg h0]
  simp only [h]
  have hfields := handleParsed_fields
    { s with lastStatusByte := (extractMidiMessage s.lastStatusByte s.midiBuffer).1,
             midiBuffer := s.midiBuffer.drop res.bytesConsumed }
    (parseMidiMessage s.baseMidiChannel res.message)
  have hlen : (handleParsed
      { s with lastStatusByte := (extractMidiMessage s.lastStatusByte s.midiBuffer).1,
               midiBuffer := s.midiBuffer.drop res.bytesConsumed }
      (parseMidiMessage s.baseMidiChannel res.message)).1.midiBuffer.length =
      s.midiBuffer.length - res.bytesConsumed := by
    rw [hfields.1]
    simp [List.length_drop]
  have hcongr := processLoop_congr
    ((handleParsed
      { s with lastStatusByte := (extractMidiMessage s.lastStatusByte s.midiBuffer).1,
               midiBuffer := s.midiBuffer.drop res.bytesConsumed }
      (parseMidiMessage s.baseMidiChannel res.message)).1.midiBuffer.length)
    s.midiBuffer.length
    ((handleParsed
      { s with lastStatusByte := (extractMidiMessage s.lastStatusByte s.midiBuffer).1,
               midiBuffer := s.midiBuffer.drop res.bytesConsumed }
      (parseMidiMessage s.baseMidiChannel res.message)).1.midiBuffer.length + 1)
    (handleParsed
      { s with lastStatusByte := (extractMidiMessage s.lastStatusByte s.midiBuffer).1,
               midiBuffer := s.midiBuffer.drop res.bytesConsumed }
      (parseMidiMessage s.baseMidiChannel res.message)).1
    (Nat.le_refl _) (by omega) (by omega)
  rw [hcongr]
  rfl

/-! ## Extraction characterization lemmas -/

theorem completeFixed_fst (statusByte dataStart : Nat) (isStatus : Bool)
    (expectedLength : Nat) (buffer : List Nat) :
    (completeFixed statusByte dataStart isStatus expectedLength buffer).1 = statusByte := by
  rw [completeFixed]
  split_ifs <;> rfl

theorem extractFrom_fst (statusByte dataStart : Nat) (isStatus : Bool)
    (buffer : List Nat) :
    (extractFrom statusByte dataStart isStatus buffer).1 = statusByte := by
  simp only [extractFrom]
  by_cases h1 : statusByte &&& 0xf0 = 0xf0
  · rw [if_pos h1]
    cases (buffer.drop dataStart).findIdx? (fun b => b == 0xf7) with
    | none => rfl
    | some i => exact completeFixed_fst _ _ _ _ _
  · rw [if_neg h1]
    split_ifs <;> first | rfl | exact completeFixed_fst _ _ _ _ _

theorem extract_cons_status (ls b : Nat) (t : List Nat) (hb : b &&& 0x80 ≠ 0) :
    extractMidiMessage ls (b :: t) = extractFrom b 1 true (b :: t) := by
  rw [extractMidiMessage, if_pos hb]

theorem extract_cons_data (ls b : Nat) (t : List Nat) (hb : b &&& 0x80 = 0)
    (hls : ls ≠ 0) :
    extractMidiMessage ls (b :: t) = extractFrom ls 0 false (b :: t) := by
  rw [extractMidiMessage, if_neg (by simp [hb]), if_neg hls]

theorem extract_cons_skip (b : Nat) (t : List Nat) (hb : b &&& 0x80 = 0) :
    extractMidiMessage 0 (b :: t) = (0, some { message := [], bytesConsumed := 1 }) := by
  rw [extractMidiMessage, if_neg (by simp [hb]), if_pos rfl]

theorem extract_fst (ls b : Nat) (t : List Nat) :
    (extractMidiMessage ls (b :: t)).1 = if b &&& 0x80 ≠ 0 then b else ls := by
  by_cases hb : b &&& 0x80 ≠ 0
  · rw [extract_cons_status ls b t hb, if_pos hb, extractFrom_fst]
  · rw [if_neg hb]
    have hb0 : b &&& 0x80 = 0 := by omega
    by_cases hls : ls = 0
    · rw [hls, extract_cons_skip b t hb0]
    · rw [extract_cons_data ls b t hb0 hls, extractFrom_fst]

theorem extractFrom_fixed2 (statusByte dataStart : Nat) (isStatus : Bool)
    (buffer : List Nat)
    (hfix : statusByte &&& 0xf0 = 0x80 ∨ statusByte &&& 0xf0 = 0x90 ∨
      statusByte &&& 0xf0 = 0xa0 ∨ statusByte &&& 0xf0 = 0xb0 ∨
      statusByte &&& 0xf0 = 0xe0)
    (hnrpn : ¬(statusByte &&& 0xf0 = 0xb0 ∧ dataStart + 1 ≤ buffer.length ∧
      buffer.getD dataStart 0 = 0x63))
    (hpair : ¬(statusByte &&& 0xf0 = 0x90 ∧ dataStart + 4 ≤ buffer.length ∧
      buffer.getD (dataStart + 2) 0 &&& 0x80 = 0 ∧
      buffer.getD (dataStart + 3) 0 = 0x00)) :
    extractFrom statusByte dataStart isStatus buffer =
      completeFixed statusByte dataStart isStatus 2 buffer := by
  simp only [extractFrom]
  rw [if_neg (by omega), if_neg (by omega), if_pos hfix, if_neg hnrpn, if_neg hpair]

theorem extractFrom_nrpn (statusByte dataStart : Nat) (isStatus : Bool)
    (buffer : List Nat)
    (hb0 : statusByte &&& 0xf0 = 0xb0)
    (hlen : dataStart + 1 ≤ buffer.length)
    (hmark : buffer.getD dataStart 0 = 0x63) :
    extractFrom statusByte dataStart isStatus buffer =
      completeFixed statusByte dataStart isStatus 6 buffer := by
  simp only [extractFrom]
  rw [if_neg (by omega), if_neg (by omega),
    if_pos (by omega), if_pos ⟨hb0, hlen, hmark⟩]

theorem extractFrom_pair (statusByte dataStart : Nat) (isStatus : Bool)
    (buffer : List Nat)
    (h90 : statusByte &&& 0xf0 = 0x90)
    (hlen : dataStart + 4 ≤ buffer.length)
    (hdata : buffer.getD (dataStart + 2) 0 &&& 0x80 = 0)
    (hzero : buffer.getD (dataStart + 3) 0 = 0x00) :
    extractFrom statusByte dataStart isStatus buffer =
      completeFixed statusByte dataStart isStatus 4 buffer := by
  simp only [extractFrom]
  rw [if_neg (by omega), if_neg (by omega), if_pos (by omega),
    if_neg (by omega), if_pos ⟨h90, hlen, hdata, hzero⟩]

theorem extractFrom_fixed1 (statusByte dataStart : Nat) (isStatus : Bool)
    (buffer : List Nat)
    (h1 : statusByte &&& 0xf0 = 0xc0 ∨ statusByte &&& 0xf0 = 0xd0) :
    extractFrom statusByte dataStart isStatus buffer =
      completeFixed statusByte dataStart isStatus 1 buffer := by
  simp only [extractFrom]
  rw [if_neg (by omega), if_pos h1]

theorem completeFixed_incomplete (statusByte dataStart : Nat) (isStatus : Bool)
    (expectedLength : Nat) (buffer : List Nat)
    (h : buffer.length < dataStart + expectedLength) :
    completeFixed statusByte dataStart isStatus expectedLength buffer =
      (statusByte, none) := by
  rw [completeFixed, if_pos h]

theorem completeFixed_complete (statusByte dataStart : Nat) (isStatus : Bool)
    (expectedLength : Nat) (buffer : List Nat)
    (h : dataStart + expectedLength ≤ buffer.length) :
    completeFixed statusByte dataStart isStatus expectedLength buffer =
      (statusByte,
        some (mkExtracted isStatus statusByte dataStart expectedLength buffer)) := by
  rw [completeFixed, if_neg (by omega)]

/-! ## List access helpers -/

theorem list_drop_two (l : List Nat) (k : Nat) (h : k + 2 ≤ l.length) :
    l.drop k = l.getD k 0 :: l.getD (k + 1) 0 :: l.drop (k + 2) := by
  have h1 : k < l.length := by omega
  have h2 : k + 1 < l.length := by omega
  rw [List.drop_eq_getElem_cons h1, List.drop_eq_getElem_cons h2]
  rw [List.getD_eq_getElem l 0 h1, List.getD_eq_getElem l 0 h2]

theorem list_take_two (l : List Nat) (k : Nat) (h : k + 2 ≤ l.length) :
    l.take (k + 2) = l.take k ++ [l.getD k 0, l.getD (k + 1) 0] := by
  rw [List.take_add, list_drop_two l k h]
  rfl

theorem list_len_le_one (l : List Nat) (h : l.length ≤ 1) :
    l = [] ∨ ∃ a, l = [a] := by
  cases l with
  | nil => exact Or.inl rfl
  | cons a t =>
    cases t with
    | nil => exact Or.inr ⟨a, rfl⟩
    | cons b u => simp at h

theorem findIdx?_append_some (p : Nat → Bool) (l e : List Nat) (i : Nat)
    (h : l.findIdx? p = some i) : (l ++ e).findIdx? p = some i := by
  rw [List.findIdx?_append, h]
  rfl

/-! ## Parser and handler lemmas for the chunk-independence proof -/

theorem parse_note_vel0_unknown (base S a : Nat) (t : List Nat)
    (hS : S &&& 0xf0 = 0x90) :
    parseMidiMessage base (S :: a :: 0 :: t) =
      { type := .unknown, channelType := none, channelNo := none,
        parameter := none, value := none, raw := S :: a :: 0 :: t } := by
  simp only [parseMidiMessage, hS]
  rw [if_pos (by norm_num)]
  rw [if_neg (by simp)]
  rw [if_pos (show (S :: a :: 0 :: t).getD 2 0 = 0 from rfl)]

theorem handleParsed_unknown (s : EngineState) (p : ParsedMidiMessage)
    (h : p.type = .unknown) : handleParsed s p = (s, []) := by
  rw [handleParsed, if_pos h]

theorem semOfParsed_unknown (p : ParsedMidiMessage) (h : p.type = .unknown) :
    semOfParsed p = none := by
  rw [semOfParsed, if_pos h]

theorem handleParsed_sem_congr (s : EngineState) (p q : ParsedMidiMessage)
    (h : semOfParsed p = semOfParsed q) : handleParsed s p = handleParsed s q := by
  by_cases hp : p.type = .unknown
  · have hq : q.type = .unknown := by
      rw [semOfParsed_unknown p hp, semOfParsed] at h
      by_cases hq' : q.type = .unknown
      · exact hq'
      · rw [if_neg hq'] at h; simp at h
    rw [handleParsed_unknown s p hp, handleParsed_unknown s q hq]
  · have hq : ¬ q.type = .unknown := by
      intro hq'
      rw [semOfParsed_unknown q hq', semOfParsed, if_neg hp] at h
      simp at h
    rw [semOfParsed, semOfParsed, if_neg hp, if_neg hq] at h
    simp only [Option.some.injEq, Prod.mk.injEq] at h
    obtain ⟨ht, hct, hno, hpar, hval⟩ := h
    have hcp : constructParameterPath p = constructParameterPath q := by
      rw [constructParameterPath.eq_def, constructParameterPath.eq_def, hct, hno, hpar]
    rw [handleParsed, handleParsed, if_neg hp, if_neg hq]
    rw [hct, hno, hpar, hval, hcp]

theorem parse_sem_pair_ext (base : Nat) (m : List Nat) (d2 : Nat)
    (hlen : m.length = 3) (hhead : m.headD 0 &&& 0xf0 = 0x90) :
    semOfParsed (parseMidiMessage base (m ++ [d2, 0])) =
      semOfParsed (parseMidiMessage base m) := by
  cases m with
  | nil => simp at hlen
  | cons S m2 =>
    cases m2 with
    | nil => simp at hlen
    | cons a m3 =>
      cases m3 with
      | nil => simp at hlen
      | cons b m4 =>
        cases m4 with
        | cons x m5 => simp at hlen
        | nil =>
          have hS : S &&& 0xf0 = 0x90 := hhead
          by_cases hb : b = 0
          · subst hb
            have e1 := parse_note_vel0_unknown base S a ([] : List Nat) hS
            have e2 := parse_note_vel0_unknown base S a ([d2, 0] : List Nat) hS
            have hms : ([S, a, 0] : List Nat) ++ [d2, 0] = S :: a :: 0 :: [d2, 0] := rfl
            rw [hms, e2, e1]
            rw [semOfParsed_unknown _ rfl, semOfParsed_unknown _ rfl]
          · simp [parseMidiMessage, hS, hb, semOfParsed]

theorem notifyFeedbacks_buffer (s : EngineState) (b : List Nat) (path : String)
    (v : DLiveValue) :
    notifyFeedbacks { s with midiBuffer := b } path v =
      ({ (notifyFeedbacks s path v).1 with midiBuffer := b },
       (notifyFeedbacks s path v).2) := by
  simp only [notifyFeedbacks]
  split_ifs <;> rfl

theorem handleParsed_buffer (s : EngineState) (b : List Nat)
    (p : ParsedMidiMessage) :
    handleParsed { s with midiBuffer := b } p =
      ({ (handleParsed s p).1 with midiBuffer := b }, (handleParsed s p).2) := by
  simp only [handleParsed]
  split_ifs with h1 h2
  · rfl
  · rfl
  · cases constructParameterPath p with
    | none => rfl
    | some path =>
      simp only
      split_ifs with h3
      · cases p.value with
        | none => rfl
        | some v => exact notifyFeedbacks_buffer s b path v
      · rfl

/-! ## The chase lemma: a leading (data, 0) pair under a note-on running
status only ever produces discarded unknown frames -/

theorem chase_base (s : EngineState) (d : Nat) (rest : List Nat)
    (hbuf : s.midiBuffer = d :: 0 :: rest)
    (hd : d &&& 0x80 = 0)
    (hmt : s.lastStatusByte &&& 0xf0 = 0x90)
    (hc4 : ¬(4 ≤ (d :: 0 :: rest).length ∧ rest.getD 0 0 &&& 0x80 = 0 ∧
      rest.getD 1 0 = 0)) :
    (runBuffer s).1 = (runBuffer { s with midiBuffer := rest }).1 ∧
    (runBuffer s).2.2 = (runBuffer { s with midiBuffer := rest }).2.2 ∧
    (runBuffer s).2.1.filterMap semOfParsed =
      (runBuffer { s with midiBuffer := rest }).2.1.filterMap semOfParsed := by
  have hls0 : s.lastStatusByte ≠ 0 := by
    intro h0
    rw [h0] at hmt
    simp at hmt
  have hex : extractMidiMessage s.lastStatusByte (d :: 0 :: rest) =
      (s.lastStatusByte,
       some { message := [s.lastStatusByte, d, 0], bytesConsumed := 2 }) := by
    rw [extract_cons_data _ _ _ hd hls0]
    rw [extractFrom_fixed2 _ _ _ _ (Or.inr (Or.inl hmt))
      (by intro hcon; omega)
      (by
        intro hcon
        refine hc4 ⟨by omega, ?_, ?_⟩
        · simpa using hcon.2.2.1
        · simpa using hcon.2.2.2)]
    rw [completeFixed_complete _ _ _ _ _ (by simp)]
    rfl
  have hsome : (extractMidiMessage s.lastStatusByte s.midiBuffer).2 =
      some { message := [s.lastStatusByte, d, 0], bytesConsumed := 2 } := by
    rw [hbuf, hex]
  have hfst : (extractMidiMessage s.lastStatusByte s.midiBuffer).1 =
      s.lastStatusByte := by
    rw [hbuf, hex]
  have hdrop : s.midiBuffer.drop 2 = rest := by rw [hbuf]; rfl
  rw [runBuffer_step s _ hsome]
  rw [hfst, hdrop]
  rw [parse_note_vel0_unknown s.baseMidiChannel s.lastStatusByte d [] hmt]
  rw [handleParsed_unknown _ _ rfl]
  refine ⟨rfl, by simp, ?_⟩
  simp only [List.filterMap_cons]
  rw [semOfParsed_unknown _ rfl]

theorem chase_pair (n : Nat) :
    ∀ (s : EngineState) (d : Nat) (rest : List Nat),
      rest.length ≤ n →
      s.midiBuffer = d :: 0 :: rest →
      d &&& 0x80 = 0 →
      s.lastStatusByte &&& 0xf0 = 0x90 →
      (runBuffer s).1 = (runBuffer { s with midiBuffer := rest }).1 ∧
      (runBuffer s).2.2 = (runBuffer { s with midiBuffer := rest }).2.2 ∧
      (runBuffer s).2.1.filterMap semOfParsed =
        (runBuffer { s with midiBuffer := rest }).2.1.filterMap semOfParsed := by
  induction n with
  | zero =>
    intro s d rest hn hbuf hd hmt
    refine chase_base s d rest hbuf hd hmt ?_
    intro hcon
    have : rest.length = 0 := by omega
    simp at hcon
    omega
  | succ n ih =>
    intro s d rest hn hbuf hd hmt
    by_cases hc4 : 4 ≤ (d :: 0 :: rest).length ∧ rest.getD 0 0 &&& 0x80 = 0 ∧
        rest.getD 1 0 = 0
    · have hrl : 2 ≤ rest.length := by
        have := hc4.1
        simp at this
        omega
      obtain ⟨e0, rest2⟩ : ∃ e0 rest2, rest = e0 :: rest2 := by
        cases rest with
        | nil => simp at hrl
        | cons x y => exact ⟨x, y, rfl⟩
      obtain ⟨rest2, hrest⟩ := rest2
      subst hrest
      obtain ⟨e1, rest', hrest⟩ : ∃ e1 rest', rest2 = e1 :: rest' := by
        cases rest2 with
        | nil => simp at hrl
        | cons x y => exact ⟨x, y, rfl⟩
      subst hrest
      have he0 : e0 &&& 0x80 = 0 := by simpa using hc4.2.1
      have he1 : e1 = 0 := by simpa using hc4.2.2
      subst he1
      have hls0 : s.lastStatusByte ≠ 0 := by
        intro h0
        rw [h0] at hmt
        simp at hmt
      have hex : extractMidiMessage s.lastStatusByte (d :: 0 :: e0 :: 0 :: rest') =
          (s.lastStatusByte,
           some { message := [s.lastStatusByte, d, 0, e0, 0], bytesConsumed := 4 }) := by
        rw [extract_cons_data _ _ _ hd hls0]
        rw [extractFrom_pair _ _ _ _ hmt (by simp) (by simpa using he0) (by simp)]
        rw [completeFixed_complete _ _ _ _ _ (by simp)]
        rfl
      have hsome : (extractMidiMessage s.lastStatusByte s.midiBuffer).2 =
          some { message := [s.lastStatusByte, d, 0, e0, 0], bytesConsumed := 4 } := by
        rw [hbuf, hex]
      have hfst : (extractMidiMessage s.lastStatusByte s.midiBuffer).1 =
          s.lastStatusByte := by
        rw [hbuf, hex]
      have hdrop : s.midiBuffer.drop 4 = rest' := by rw [hbuf]; rfl
      rw [runBuffer_step s _ hsome]
      rw [hfst, hdrop]
      rw [parse_note_vel0_unknown s.baseMidiChannel s.lastStatusByte d [e0, 0] hmt]
      rw [handleParsed_unknown _ _ rfl]
      have hihres := ih { s with midiBuffer := e0 :: 0 :: rest' } e0 rest'
        (by simp at hn ⊢; omega) rfl he0 hmt
      refine ⟨?_, ?_, ?_⟩
      · exact hihres.1.symm
      · simpa using hihres.2.1.symm
      · simp only [List.filterMap_cons]
        rw [semOfParsed_unknown _ rfl]
        exact hihres.2.2.symm
    · exact chase_base s d rest hbuf hd hmt hc4

/-! ## Extraction under buffer extension: stability and the single
coalescing upgrade -/

theorem extractFrom_sysex_found (S ds : Nat) (i : Bool) (buf : List Nat)
    (idx : Nat) (hF0 : S &&& 0xf0 = 0xf0)
    (hfi : (buf.drop ds).findIdx? (fun b => b == 0xf7) = some idx) :
    extractFrom S ds i buf = completeFixed S ds i (idx + 1) buf := by
  simp only [extractFrom]
  rw [if_pos hF0, hfi]

theorem extractFrom_sysex_none (S ds : Nat) (i : Bool) (buf : List Nat)
    (hF0 : S &&& 0xf0 = 0xf0)
    (hfi : (buf.drop ds).findIdx? (fun b => b == 0xf7) = none) :
    extractFrom S ds i buf = (S, none) := by
  simp only [extractFrom]
  rw [if_pos hF0, hfi]

theorem extractFrom_other (S ds : Nat) (i : Bool) (buf : List Nat)
    (hF0 : ¬ S &&& 0xf0 = 0xf0)
    (hCD : ¬(S &&& 0xf0 = 0xc0 ∨ S &&& 0xf0 = 0xd0))
    (hFX : ¬(S &&& 0xf0 = 0x80 ∨ S &&& 0xf0 = 0x90 ∨ S &&& 0xf0 = 0xa0 ∨
      S &&& 0xf0 = 0xb0 ∨ S &&& 0xf0 = 0xe0)) :
    extractFrom S ds i buf = (S, some { message := [], bytesConsumed := 1 }) := by
  simp only [extractFrom]
  rw [if_neg hF0, if_neg hCD, if_neg hFX]

theorem mkExtracted_append (i : Bool) (S ds e : Nat) (A E : List Nat)
    (h : ds + e ≤ A.length) :
    mkExtracted i S ds e (A ++ E) = mkExtracted i S ds e A := by
  cases i with
  | true =>
    rw [mkExtracted, mkExtracted]
    rw [List.take_append_of_le_length h]
    rfl
  | false =>
    rw [mkExtracted, mkExtracted]
    rw [List.drop_append_of_le_length (show ds ≤ A.length by omega)]
    rw [List.take_append_of_le_length
      (show e ≤ (A.drop ds).length by rw [List.length_drop]; omega)]
    rfl

theorem extractFrom_extend (S ds : Nat) (i : Bool) (A E : List Nat)
    (res : ExtractResult)
    (hds : ds ≤ A.length)
    (hhead : i = true → A.headD 0 = S)
    (hds1 : i = true → ds = 1)
    (hds0 : i = false → ds = 0)
    (h : (extractFrom S ds i A).2 = some res) :
    (extractFrom S ds i (A ++ E)).2 = some res ∨
    (∃ d2,
      (extractFrom S ds i (A ++ E)).2 =
        some { message := res.message ++ [d2, 0],
               bytesConsumed := res.bytesConsumed + 2 } ∧
      d2 &&& 0x80 = 0 ∧
      S &&& 0xf0 = 0x90 ∧
      res.message.length = 3 ∧
      res.message.headD 0 = S ∧
      res.bytesConsumed ≤ A.length ∧
      A.length < res.bytesConsumed + 2 ∧
      (A ++ E).drop res.bytesConsumed =
        d2 :: 0 :: (A ++ E).drop (res.bytesConsumed + 2)) := by
  have hdropA : (A ++ E).drop ds = A.drop ds ++ E :=
    List.drop_append_of_le_length hds
  by_cases hF0 : S &&& 0xf0 = 0xf0
  · left
    cases hfi : (A.drop ds).findIdx? (fun b => b == 0xf7) with
    | none =>
      rw [extractFrom_sysex_none S ds i A hF0 hfi] at h
      simp at h
    | some idx =>
      rw [extractFrom_sysex_found S ds i A idx hF0 hfi] at h
      have hc := completeFixed_some_consumed _ _ _ _ _ _ h
      rw [completeFixed_complete _ _ _ _ _ hc.2] at h
      have hfi2 : ((A ++ E).drop ds).findIdx? (fun b => b == 0xf7) = some idx := by
        rw [hdropA]
        exact findIdx?_append_some _ _ _ _ hfi
      rw [extractFrom_sysex_found S ds i (A ++ E) idx hF0 hfi2]
      rw [completeFixed_complete _ _ _ _ _ (by simp; omega)]
      rw [mkExtracted_append _ _ _ _ _ _ hc.2]
      exact h
  · by_cases hCD : S &&& 0xf0 = 0xc0 ∨ S &&& 0xf0 = 0xd0
    · left
      rw [extractFrom_fixed1 _ _ _ _ hCD] at h
      have hc := completeFixed_some_consumed _ _ _ _ _ _ h
      rw [completeFixed_complete _ _ _ _ _ hc.2] at h
      rw [extractFrom_fixed1 _ _ _ _ hCD]
      rw [completeFixed_complete _ _ _ _ _ (by simp; omega)]
      rw [mkExtracted_append _ _ _ _ _ _ hc.2]
      exact h
    · by_cases hFX : S &&& 0xf0 = 0x80 ∨ S &&& 0xf0 = 0x90 ∨ S &&& 0xf0 = 0xa0 ∨
          S &&& 0xf0 = 0xb0 ∨ S &&& 0xf0 = 0xe0
      · by_cases hNR : S &&& 0xf0 = 0xb0 ∧ ds + 1 ≤ A.length ∧ A.getD ds 0 = 0x63
        · left
          rw [extractFrom_nrpn _ _ _ _ hNR.1 hNR.2.1 hNR.2.2] at h
          have hc := completeFixed_some_consumed _ _ _ _ _ _ h
          rw [completeFixed_complete _ _ _ _ _ hc.2] at h
          have hg : (A ++ E).getD ds 0 = 0x63 := by
            rw [List.getD_append _ _ _ _ (by omega)]
            exact hNR.2.2
          rw [extractFrom_nrpn _ _ _ _ hNR.1 (by simp; omega) hg]
          rw [completeFixed_complete _ _ _ _ _ (by simp; omega)]
          rw [mkExtracted_append _ _ _ _ _ _ hc.2]
          exact h
        · by_cases hPR : S &&& 0xf0 = 0x90 ∧ ds + 4 ≤ A.length ∧
              A.getD (ds + 2) 0 &&& 0x80 = 0 ∧ A.getD (ds + 3) 0 = 0x00
          · left
            rw [extractFrom_pair _ _ _ _ hPR.1 hPR.2.1 hPR.2.2.1 hPR.2.2.2] at h
            have hc := completeFixed_some_consumed _ _ _ _ _ _ h
            rw [completeFixed_complete _ _ _ _ _ hc.2] at h
            have hg2 : (A ++ E).getD (ds + 2) 0 &&& 0x80 = 0 := by
              rw [List.getD_append _ _ _ _ (by omega)]
              exact hPR.2.2.1
            have hg3 : (A ++ E).getD (ds + 3) 0 = 0x00 := by
              rw [List.getD_append _ _ _ _ (by omega)]
              exact hPR.2.2.2
            rw [extractFrom_pair _ _ _ _ hPR.1 (by simp; omega) hg2 hg3]
            rw [completeFixed_complete _ _ _ _ _ (by simp; omega)]
            rw [mkExtracted_append _ _ _ _ _ _ hc.2]
            exact h
          · rw [extractFrom_fixed2 _ _ _ _ hFX hNR hPR] at h
            have hc := completeFixed_some_consumed _ _ _ _ _ _ h
            rw [completeFixed_complete _ _ _ _ _ hc.2] at h
            have hres : mkExtracted i S ds 2 A = res := Option.some.inj h
            subst hres
            have hNR2 : ¬(S &&& 0xf0 = 0xb0 ∧ ds + 1 ≤ (A ++ E).length ∧
                (A ++ E).getD ds 0 = 0x63) := by
              intro hcon
              refine hNR ⟨hcon.1, by omega, ?_⟩
              rw [List.getD_append _ _ _ _ (by omega)] at hcon
              exact hcon.2.2
            by_cases hPR2 : S &&& 0xf0 = 0x90 ∧ ds + 4 ≤ (A ++ E).length ∧
                (A ++ E).getD (ds + 2) 0 &&& 0x80 = 0 ∧ (A ++ E).getD (ds + 3) 0 = 0x00
            · right
              have hlenA : A.length < ds + 4 := by
                by_contra hge
                refine hPR ⟨hPR2.1, by omega, ?_, ?_⟩
                · have h2 := hPR2.2.2.1
                  rwa [List.getD_append _ _ _ _ (by omega)] at h2
                · have h3 := hPR2.2.2.2
                  rwa [List.getD_append _ _ _ _ (by omega)] at h3
              have hkk : (mkExtracted i S ds 2 A).bytesConsumed = ds + 2 := hc.1
              refine ⟨(A ++ E).getD (ds + 2) 0, ?_, hPR2.2.2.1, hPR2.1, ?_, ?_,
                by rw [hkk]; omega, by rw [hkk]; omega, ?_⟩
              · rw [extractFrom_pair _ _ _ _ hPR2.1 hPR2.2.1 hPR2.2.2.1 hPR2.2.2.2]
                rw [completeFixed_complete _ _ _ _ _ hPR2.2.1]
                have hmk : mkExtracted i S ds 4 (A ++ E) =
                    { message := (mkExtracted i S ds 2 A).message ++
                        [(A ++ E).getD (ds + 2) 0, 0],
                      bytesConsumed := (mkExtracted i S ds 2 A).bytesConsumed + 2 } := by
                  rw [mkExtracted, mkExtracted]
                  cases i with
                  | true =>
                    simp only [if_true]
                    have hds4 : ds + 4 = (ds + 2) + 2 := by omega
                    rw [hds4, list_take_two (A ++ E) (ds + 2) (by omega)]
                    rw [List.take_append_of_le_length (by omega)]
                    rw [hPR2.2.2.2]
                  | false =>
                    simp only [Bool.false_eq_true, if_false]
                    have h0 : ds = 0 := hds0 rfl
                    subst h0
                    rw [List.drop_zero, List.drop_zero]
                    have h4 : (4 : Nat) = 2 + 2 := by norm_num
                    rw [h4, list_take_two (A ++ E) 2 (by omega)]
                    rw [List.take_append_of_le_length (by omega)]
                    have h3 := hPR2.2.2.2
                    simp only [Nat.zero_add] at h3
                    rw [h3]
                    simp
                rw [hmk]
              · rw [mkExtracted]
                cases i with
                | true =>
                  simp only [if_true]
                  have h1 : ds = 1 := hds1 rfl
                  subst h1
                  simp only [List.length_take]
                  omega
                | false =>
                  simp only [Bool.false_eq_true, if_false]
                  have h0 : ds = 0 := hds0 rfl
                  subst h0
                  simp only [List.length_cons, List.length_take, List.drop_zero]
                  omega
              · rw [mkExtracted]
                cases i with
                | true =>
                  simp only [if_true]
                  have h1 : ds = 1 := hds1 rfl
                  subst h1
                  cases A with
                  | nil =>
                    exfalso
                    have h2 := hc.2
                    simp at h2
                  | cons a t =>
                    have hS : a = S := by simpa using hhead rfl
                    subst hS
                    rfl
                | false =>
                  simp only [Bool.false_eq_true, if_false]
                  rfl
              · rw [hkk]
                have hds22 : ds + 2 + 2 = ds + 4 := by omega
                rw [list_drop_two (A ++ E) (ds + 2)
                  (show ds + 2 + 2 ≤ (A ++ E).length by
                    have h5 := hPR2.2.1
                    simp at h5 ⊢
                    omega)]
                rw [hPR2.2.2.2, hds22]
            · left
              rw [extractFrom_fixed2 _ _ _ _ hFX hNR2 hPR2]
              rw [completeFixed_complete _ _ _ _ _ (by simp; omega)]
              rw [mkExtracted_append _ _ _ _ _ _ hc.2]
      · left
        rw [extractFrom_other _ _ _ _ hF0 hCD hFX] at h
        rw [extractFrom_other _ _ _ _ hF0 hCD hFX]
        exact h

theorem extract_extend (ls : Nat) (A E : List Nat) (res : ExtractResult)
    (h : (extractMidiMessage ls A).2 = some res) :
    (extractMidiMessage ls (A ++ E)).1 = (extractMidiMessage ls A).1 ∧
    ((extractMidiMessage ls (A ++ E)).2 = some res ∨
     (∃ d2,
       (extractMidiMessage ls (A ++ E)).2 =
         some { message := res.message ++ [d2, 0],
                bytesConsumed := res.bytesConsumed + 2 } ∧
       d2 &&& 0x80 = 0 ∧
       (extractMidiMessage ls A).1 &&& 0xf0 = 0x90 ∧
       res.message.length = 3 ∧
       res.message.headD 0 = (extractMidiMessage ls A).1 ∧
       res.bytesConsumed ≤ A.length ∧
       A.length < res.bytesConsumed + 2 ∧
       (A ++ E).drop res.bytesConsumed =
         d2 :: 0 :: (A ++ E).drop (res.bytesConsumed + 2))) := by
  cases A with
  | nil => simp [extractMidiMessage] at h
  | cons b t =>
    have happ : (b :: t) ++ E = b :: (t ++ E) := rfl
    by_cases hb : b &&& 0x80 ≠ 0
    · rw [extract_cons_status ls b t hb] at h
      have hdich := extractFrom_extend b 1 true (b :: t) E res (by simp)
        (fun _ => rfl) (fun _ => rfl) (fun hh => by simp at hh) h
      rw [happ] at hdich
      constructor
      · rw [happ, extract_cons_status ls b (t ++ E) hb, extract_cons_status ls b t hb,
          extractFrom_fst, extractFrom_fst]
      · rw [happ, extract_cons_status ls b (t ++ E) hb, extract_cons_status ls b t hb,
          extractFrom_fst]
        exact hdich
    · have hb0 : b &&& 0x80 = 0 := by omega
      by_cases hls : ls = 0
      · subst hls
        rw [extract_cons_skip b t hb0] at h
        have hres : ({ message := [], bytesConsumed := 1 } : ExtractResult) = res :=
          Option.some.inj h
        constructor
        · rw [happ, extract_cons_skip b (t ++ E) hb0, extract_cons_skip b t hb0]
        · left
          rw [happ, extract_cons_skip b (t ++ E) hb0]
          rw [← hres]
      · rw [extract_cons_data ls b t hb0 hls] at h
        have hdich := extractFrom_extend ls 0 false (b :: t) E res (by simp)
          (fun hh => by simp at hh) (fun hh => by simp at hh) (fun _ => rfl) h
        rw [happ] at hdich
        constructor
        · rw [happ, extract_cons_data ls b (t ++ E) hb0 hls,
            extract_cons_data ls b t hb0 hls, extractFrom_fst, extractFrom_fst]
        · rw [happ, extract_cons_data ls b (t ++ E) hb0 hls,
            extract_cons_data ls b t hb0 hls, extractFrom_fst]
          exact hdich

theorem runBuffer_set_ls (s : EngineState) (x b : Nat) (u : List Nat)
    (hbuf : s.midiBuffer = b :: u) (hb : b &&& 0x80 ≠ 0) :
    runBuffer { s with lastStatusByte := x } = runBuffer s := by
  have hx : ∀ y : Nat, extractMidiMessage y s.midiBuffer =
      extractFrom b 1 true (b :: u) := by
    intro y
    rw [hbuf, extract_cons_status _ _ _ hb]
  cases hr : (extractFrom b 1 true (b :: u)).2 with
  | none =>
    have h1 : (extractMidiMessage x s.midiBuffer).2 = none := by rw [hx]; exact hr
    have h2 : (extractMidiMessage s.lastStatusByte s.midiBuffer).2 = none := by
      rw [hx]; exact hr
    rw [runBuffer_stall { s with lastStatusByte := x } h1, runBuffer_stall s h2]
    have hf1 : (extractMidiMessage x s.midiBuffer).1 = b := by
      rw [hx, extractFrom_fst]
    have hf2 : (extractMidiMessage s.lastStatusByte s.midiBuffer).1 = b := by
      rw [hx, extractFrom_fst]
    rw [hf1, hf2]
  | some res =>
    have h1 : (extractMidiMessage x s.midiBuffer).2 = some res := by rw [hx]; exact hr
    have h2 : (extractMidiMessage s.lastStatusByte s.midiBuffer).2 = some res := by
      rw [hx]; exact hr
    rw [runBuffer_step { s with lastStatusByte := x } res h1,
      runBuffer_step s res h2]
    have hf1 : (extractMidiMessage x s.midiBuffer).1 = b := by
      rw [hx, extractFrom_fst]
    have hf2 : (extractMidiMessage s.lastStatusByte s.midiBuffer).1 = b := by
      rw [hx, extractFrom_fst]
    rw [hf1, hf2]

/-! ## Merging two ingestion calls into one -/

theorem runBuffer_merge (n : Nat) :
    ∀ (s : EngineState) (E : List Nat),
      s.midiBuffer.length ≤ n →
      (runBuffer { (runBuffer s).1 with
          midiBuffer := (runBuffer s).1.midiBuffer ++ E }).1 =
        (runBuffer { s with midiBuffer := s.midiBuffer ++ E }).1 ∧
      (runBuffer s).2.2 ++ (runBuffer { (runBuffer s).1 with
          midiBuffer := (runBuffer s).1.midiBuffer ++ E }).2.2 =
        (runBuffer { s with midiBuffer := s.midiBuffer ++ E }).2.2 ∧
      ((runBuffer s).2.1 ++ (runBuffer { (runBuffer s).1 with
          midiBuffer := (runBuffer s).1.midiBuffer ++ E }).2.1).filterMap semOfParsed =
        (runBuffer { s with midiBuffer := s.midiBuffer ++ E }).2.1.filterMap
          semOfParsed := by
  induction n with
  | zero =>
    intro s E hn
    have hA : s.midiBuffer = [] := List.length_eq_zero.mp (by omega)
    have h1 : runBuffer s = (s, [], []) := runBuffer_empty s hA
    rw [h1]
    exact ⟨rfl, rfl, rfl⟩
  | succ n ih =>
    intro s E hn
    obtain ⟨T, hT⟩ : ∃ T : EngineState,
        T = { s with midiBuffer := s.midiBuffer ++ E } := ⟨_, rfl⟩
    rw [← hT]
    have hTls : T.lastStatusByte = s.lastStatusByte := by rw [hT]
    have hTbuf : T.midiBuffer = s.midiBuffer ++ E := by rw [hT]
    have hTbase : T.baseMidiChannel = s.baseMidiChannel := by rw [hT]
    cases hr : (extractMidiMessage s.lastStatusByte s.midiBuffer).2 with
    | none =>
      have h1 := runBuffer_stall s hr
      have g1 : (runBuffer s).1 =
          { s with
            lastStatusByte := (extractMidiMessage s.lastStatusByte s.midiBuffer).1 } := by
        rw [h1]
      have g2 : (runBuffer s).2.1 = [] := by rw [h1]
      have g3 : (runBuffer s).2.2 = [] := by rw [h1]
      rw [g1, g2, g3]
      have hcompat : runBuffer
          { s with
            lastStatusByte := (extractMidiMessage s.lastStatusByte s.midiBuffer).1,
            midiBuffer := s.midiBuffer ++ E } =
          runBuffer T := by
        rw [hT]
        cases hA : s.midiBuffer with
        | nil =>
          have hls : (extractMidiMessage s.lastStatusByte ([] : List Nat)).1 =
              s.lastStatusByte := rfl
          rw [hls]
        | cons b t =>
          by_cases hbst : b &&& 0x80 ≠ 0
          · have hf : (extractMidiMessage s.lastStatusByte (b :: t)).1 = b := by
              rw [extract_fst, if_pos hbst]
            rw [hf]
            exact runBuffer_set_ls { s with midiBuffer := (b :: t) ++ E } b b
              (t ++ E) rfl hbst
          · have hf : (extractMidiMessage s.lastStatusByte (b :: t)).1 =
                s.lastStatusByte := by rw [extract_fst, if_neg hbst]
            rw [hf]
      refine ⟨?_, ?_, ?_⟩
      · exact congrArg Prod.fst hcompat
      · exact congrArg (fun r => r.2.2) hcompat
      · exact congrArg (fun r => List.filterMap semOfParsed r.2.1) hcompat
    | some res =>
      have hcons := extract_some_consumed _ _ _ hr
      obtain ⟨S2, hS2⟩ : ∃ S2 : EngineState,
          S2 = { s with
            lastStatusByte := (extractMidiMessage s.lastStatusByte s.midiBuffer).1,
            midiBuffer := s.midiBuffer.drop res.bytesConsumed } := ⟨_, rfl⟩
      obtain ⟨P, hP⟩ : ∃ P : ParsedMidiMessage,
          P = parseMidiMessage s.baseMidiChannel res.message := ⟨_, rfl⟩
      have h1 := runBuffer_step s res hr
      rw [← hS2, ← hP] at h1
      have g1 : (runBuffer s).1 = (runBuffer (handleParsed S2 P).1).1 := by rw [h1]
      have g2 : (runBuffer s).2.1 = P :: (runBuffer (handleParsed S2 P).1).2.1 := by
        rw [h1]
      have g3 : (runBuffer s).2.2 =
          (handleParsed S2 P).2 ++ (runBuffer (handleParsed S2 P).1).2.2 := by rw [h1]
      have hfld := handleParsed_fields S2 P
      have hS2ls : S2.lastStatusByte =
          (extractMidiMessage s.lastStatusByte s.midiBuffer).1 := by rw [hS2]
      have hS2buf : S2.midiBuffer = s.midiBuffer.drop res.bytesConsumed := by rw [hS2]
      have hHls : (handleParsed S2 P).1.lastStatusByte =
          (extractMidiMessage s.lastStatusByte s.midiBuffer).1 := by
        rw [hfld.2.1, hS2ls]
      have hHbuf : (handleParsed S2 P).1.midiBuffer =
          s.midiBuffer.drop res.bytesConsumed := by
        rw [hfld.1, hS2buf]
      obtain ⟨hfst2, hdich⟩ := extract_extend s.lastStatusByte s.midiBuffer E res hr
      have hdropApp : (s.midiBuffer ++ E).drop res.bytesConsumed =
          s.midiBuffer.drop res.bytesConsumed ++ E :=
        List.drop_append_of_le_length hcons.2
      rcases hdich with hstable | ⟨d2, hext, hd2, hS90, hmlen3, hhead3, hkA, hAk2, hdropEq⟩
      · -- stable: the extended buffer yields the same frame
        have hext' : (extractMidiMessage T.lastStatusByte T.midiBuffer).2 = some res := by
          rw [hTls, hTbuf]
          exact hstable
        have h3 := runBuffer_step T res hext'
        have hTstep : ({ T with
            lastStatusByte := (extractMidiMessage T.lastStatusByte T.midiBuffer).1,
            midiBuffer := T.midiBuffer.drop res.bytesConsumed } : EngineState) =
            { S2 with midiBuffer := s.midiBuffer.drop res.bytesConsumed ++ E } := by
          rw [hT, hS2]
          dsimp only
          rw [hfst2, hdropApp]
        have hTpar : parseMidiMessage T.baseMidiChannel res.message = P := by
          rw [hT, hP]
        rw [hTstep, hTpar] at h3
        rw [handleParsed_buffer S2 (s.midiBuffer.drop res.bytesConsumed ++ E) P] at h3
        rw [show (({ (handleParsed S2 P).1 with
            midiBuffer := s.midiBuffer.drop res.bytesConsumed ++ E },
            (handleParsed S2 P).2) : EngineState × List Effect).1 =
          { (handleParsed S2 P).1 with
            midiBuffer := s.midiBuffer.drop res.bytesConsumed ++ E } from rfl] at h3
        rw [show (({ (handleParsed S2 P).1 with
            midiBuffer := s.midiBuffer.drop res.bytesConsumed ++ E },
            (handleParsed S2 P).2) : EngineState × List Effect).2 =
          (handleParsed S2 P).2 from rfl] at h3
        have t1 : (runBuffer T).1 =
            (runBuffer { (handleParsed S2 P).1 with
              midiBuffer := s.midiBuffer.drop res.bytesConsumed ++ E }).1 := by rw [h3]
        have t2 : (runBuffer T).2.1 =
            P :: (runBuffer { (handleParsed S2 P).1 with
              midiBuffer := s.midiBuffer.drop res.bytesConsumed ++ E }).2.1 := by rw [h3]
        have t3 : (runBuffer T).2.2 =
            (handleParsed S2 P).2 ++ (runBuffer { (handleParsed S2 P).1 with
              midiBuffer := s.midiBuffer.drop res.bytesConsumed ++ E }).2.2 := by rw [h3]
        rw [g1, g2, g3, t1, t2, t3]
        have hlen3 : (handleParsed S2 P).1.midiBuffer.length ≤ n := by
          rw [hHbuf, List.length_drop]
          omega
        obtain ⟨ih1, ih2, ih3⟩ := ih (handleParsed S2 P).1 E hlen3
        rw [hHbuf] at ih1 ih2 ih3
        refine ⟨ih1, ?_, ?_⟩
        · rw [List.append_assoc]
          exact congrArg (fun l => (handleParsed S2 P).2 ++ l) ih2
        · rw [List.cons_append]
          simp only [List.filterMap_cons]
          rw [ih3]
      · -- upgrade: the extended buffer coalesces the note-off pair
        have hls1ne : (extractMidiMessage s.lastStatusByte s.midiBuffer).1 ≠ 0 := by
          intro h0
          rw [h0] at hS90
          simp at hS90
        have hext' : (extractMidiMessage T.lastStatusByte T.midiBuffer).2 =
            some { message := res.message ++ [d2, 0],
                   bytesConsumed := res.bytesConsumed + 2 } := by
          rw [hTls, hTbuf]
          exact hext
        have h3 := runBuffer_step T
          { message := res.message ++ [d2, 0], bytesConsumed := res.bytesConsumed + 2 }
          hext'
        have hTstep : ({ T with
            lastStatusByte := (extractMidiMessage T.lastStatusByte T.midiBuffer).1,
            midiBuffer := T.midiBuffer.drop
              ({ message := res.message ++ [d2, 0],
                 bytesConsumed := res.bytesConsumed + 2 } : ExtractResult).bytesConsumed }
            : EngineState) =
            { S2 with
              midiBuffer := (s.midiBuffer ++ E).drop (res.bytesConsumed + 2) } := by
          rw [hT, hS2]
          dsimp only
          rw [hfst2]
        have hTpar : parseMidiMessage T.baseMidiChannel
            ({ message := res.message ++ [d2, 0],
               bytesConsumed := res.bytesConsumed + 2 } : ExtractResult).message =
            parseMidiMessage s.baseMidiChannel (res.message ++ [d2, 0]) := by
          rw [hT]
        rw [hTstep, hTpar] at h3
        have hsem := parse_sem_pair_ext s.baseMidiChannel res.message d2 hmlen3
          (by rw [hhead3]; exact hS90)
        have hHcong : handleParsed
            { S2 with midiBuffer := (s.midiBuffer ++ E).drop (res.bytesConsumed + 2) }
            (parseMidiMessage s.baseMidiChannel (res.message ++ [d2, 0])) =
            handleParsed
            { S2 with midiBuffer := (s.midiBuffer ++ E).drop (res.bytesConsumed + 2) }
            P := by
          rw [hP]
          exact handleParsed_sem_congr _ _ _ hsem
        rw [hHcong] at h3
        rw [handleParsed_buffer S2
          ((s.midiBuffer ++ E).drop (res.bytesConsumed + 2)) P] at h3
        rw [show (({ (handleParsed S2 P).1 with
            midiBuffer := (s.midiBuffer ++ E).drop (res.bytesConsumed + 2) },
            (handleParsed S2 P).2) : EngineState × List Effect).1 =
          { (handleParsed S2 P).1 with
            midiBuffer := (s.midiBuffer ++ E).drop (res.bytesConsumed + 2) } from
          rfl] at h3
        rw [show (({ (handleParsed S2 P).1 with
            midiBuffer := (s.midiBuffer ++ E).drop (res.bytesConsumed + 2) },
            (handleParsed S2 P).2) : EngineState × List Effect).2 =
          (handleParsed S2 P).2 from rfl] at h3
        have t1 : (runBuffer T).1 =
            (runBuffer { (handleParsed S2 P).1 with
              midiBuffer := (s.midiBuffer ++ E).drop (res.bytesConsumed + 2) }).1 := by
          rw [h3]
        have t2 : (runBuffer T).2.1 =
            parseMidiMessage s.baseMidiChannel (res.message ++ [d2, 0]) ::
              (runBuffer { (handleParsed S2 P).1 with
                midiBuffer := (s.midiBuffer ++ E).drop (res.bytesConsumed + 2) }).2.1 := by
          rw [h3]
        have t3 : (runBuffer T).2.2 =
            (handleParsed S2 P).2 ++ (runBuffer { (handleParsed S2 P).1 with
              midiBuffer := (s.midiBuffer ++ E).drop (res.bytesConsumed + 2) }).2.2 := by
          rw [h3]
        rw [g1, g2, g3, t1, t2, t3]
        have hdropAE : s.midiBuffer.drop res.bytesConsumed ++ E =
            d2 :: 0 :: (s.midiBuffer ++ E).drop (res.bytesConsumed + 2) := by
          rw [← hdropApp, hdropEq]
        have htail := list_len_le_one (s.midiBuffer.drop res.bytesConsumed)
          (by rw [List.length_drop]; omega)
        have hF1 : runBuffer (handleParsed S2 P).1 = ((handleParsed S2 P).1, [], []) := by
          rcases htail with hnil | ⟨a, ha⟩
          · exact runBuffer_empty _ (by rw [hHbuf, hnil])
          · have hx := hdropAE
            rw [ha] at hx
            have had2 : a = d2 :=
              (List.cons.inj (show a :: E =
                d2 :: 0 :: (s.midiBuffer ++ E).drop (res.bytesConsumed + 2) from hx)).1
            subst had2
            have hstall : (extractMidiMessage (handleParsed S2 P).1.lastStatusByte
                (handleParsed S2 P).1.midiBuffer).2 = none := by
              rw [hHls, hHbuf, ha]
              rw [extract_cons_data _ _ _ hd2 hls1ne]
              rw [extractFrom_fixed2 _ _ _ _ (Or.inr (Or.inl hS90))
                (by rintro ⟨hcon, -⟩; omega)
                (by rintro ⟨-, h4, -⟩; simp at h4)]
              rw [completeFixed_incomplete _ _ _ _ _ (by simp)]
            rw [runBuffer_stall _ hstall]
            have hlsx : (extractMidiMessage (handleParsed S2 P).1.lastStatusByte
                (handleParsed S2 P).1.midiBuffer).1 =
                (handleParsed S2 P).1.lastStatusByte := by
              rw [hHls, hHbuf, ha]
              rw [extract_fst, if_neg (by omega)]
            rw [hlsx]
        have hchase := chase_pair
          ((s.midiBuffer ++ E).drop (res.bytesConsumed + 2)).length
          { (handleParsed S2 P).1 with
            midiBuffer := s.midiBuffer.drop res.bytesConsumed ++ E }
          d2 ((s.midiBuffer ++ E).drop (res.bytesConsumed + 2))
          (Nat.le_refl _) hdropAE hd2
          (show (handleParsed S2 P).1.lastStatusByte &&& 0xf0 = 0x90 by
            rw [hHls]
            exact hS90)
        have hc1 : (runBuffer { (handleParsed S2 P).1 with
            midiBuffer := s.midiBuffer.drop res.bytesConsumed ++ E }).1 =
            (runBuffer { (handleParsed S2 P).1 with
              midiBuffer := (s.midiBuffer ++ E).drop (res.bytesConsumed + 2) }).1 :=
          hchase.1
        have hc2 : (runBuffer { (handleParsed S2 P).1 with
            midiBuffer := s.midiBuffer.drop res.bytesConsumed ++ E }).2.2 =
            (runBuffer { (handleParsed S2 P).1 with
              midiBuffer := (s.midiBuffer ++ E).drop (res.bytesConsumed + 2) }).2.2 :=
          hchase.2.1
        have hc3 : (runBuffer { (handleParsed S2 P).1 with
            midiBuffer := s.midiBuffer.drop res.bytesConsumed ++ E }).2.1.filterMap
              semOfParsed =
            (runBuffer { (handleParsed S2 P).1 with
              midiBuffer := (s.midiBuffer ++ E).drop
                (res.bytesConsumed + 2) }).2.1.filterMap semOfParsed :=
          hchase.2.2
        have hRH1 : (runBuffer (handleParsed S2 P).1).1 = (handleParsed S2 P).1 := by
          rw [hF1]
        have hRH21 : (runBuffer (handleParsed S2 P).1).2.1 = [] := by rw [hF1]
        have hRH22 : (runBuffer (handleParsed S2 P).1).2.2 = [] := by rw [hF1]
        rw [hRH1, hRH21, hRH22, hHbuf]
        have hsemP : semOfParsed
            (parseMidiMessage s.baseMidiChannel (res.message ++ [d2, 0])) =
            semOfParsed P := by
          rw [hP]
          exact hsem
        refine ⟨hc1, ?_, ?_⟩
        · rw [List.append_nil]
          exact congrArg (fun l => (handleParsed S2 P).2 ++ l) hc2
        · simp only [List.cons_append, List.nil_append, List.filterMap_cons]
          rw [hsemP, hc3]

/-! ## Chunk-boundary independence -/

theorem processChunks_join (rest : List (List Nat)) :
    ∀ (s : EngineState) (c : List Nat),
      (processChunks s (c :: rest)).1 = (processMidiData s (c ++ rest.flatten)).1 ∧
      (processChunks s (c :: rest)).2.2 = (processMidiData s (c ++ rest.flatten)).2.2 ∧
      (processChunks s (c :: rest)).2.1.filterMap semOfParsed =
        (processMidiData s (c ++ rest.flatten)).2.1.filterMap semOfParsed := by
  induction rest with
  | nil =>
    intro s c
    have hj : c ++ ([] : List (List Nat)).flatten = c := by simp
    rw [hj]
    refine ⟨rfl, List.append_nil _, congrArg (List.filterMap semOfParsed)
      (List.append_nil _)⟩
  | cons c2 rest ih =>
    intro s c
    rw [List.flatten_cons]
    obtain ⟨ih1, ih2, ih3⟩ := ih (processMidiData s c).1 c2
    obtain ⟨m1, m2, m3⟩ := runBuffer_merge (s.midiBuffer ++ c).length
      { s with midiBuffer := s.midiBuffer ++ c } (c2 ++ rest.flatten) (Nat.le_refl _)
    have hrec : ({ s with
        midiBuffer := (s.midiBuffer ++ c) ++ (c2 ++ rest.flatten) } : EngineState) =
        { s with midiBuffer := s.midiBuffer ++ (c ++ (c2 ++ rest.flatten)) } := by
      rw [List.append_assoc]
    have m1' : (processMidiData (processMidiData s c).1 (c2 ++ rest.flatten)).1 =
        (processMidiData s (c ++ (c2 ++ rest.flatten))).1 := by
      rw [show processMidiData s (c ++ (c2 ++ rest.flatten)) =
        runBuffer { s with
          midiBuffer := s.midiBuffer ++ (c ++ (c2 ++ rest.flatten)) } from rfl]
      rw [← hrec]
      exact m1
    have m2' : (processMidiData s c).2.2 ++
        (processMidiData (processMidiData s c).1 (c2 ++ rest.flatten)).2.2 =
        (processMidiData s (c ++ (c2 ++ rest.flatten))).2.2 := by
      rw [show processMidiData s (c ++ (c2 ++ rest.flatten)) =
        runBuffer { s with
          midiBuffer := s.midiBuffer ++ (c ++ (c2 ++ rest.flatten)) } from rfl]
      rw [← hrec]
      exact m2
    have m3' : ((processMidiData s c).2.1 ++
        (processMidiData (processMidiData s c).1 (c2 ++ rest.flatten)).2.1).filterMap
          semOfParsed =
        (processMidiData s (c ++ (c2 ++ rest.flatten))).2.1.filterMap semOfParsed := by
      rw [show processMidiData s (c ++ (c2 ++ rest.flatten)) =
        runBuffer { s with
          midiBuffer := s.midiBuffer ++ (c ++ (c2 ++ rest.flatten)) } from rfl]
      rw [← hrec]
      exact m3
    refine ⟨?_, ?_, ?_⟩
    · calc (processChunks s (c :: c2 :: rest)).1
          = (processChunks (processMidiData s c).1 (c2 :: rest)).1 := rfl
        _ = (processMidiData (processMidiData s c).1 (c2 ++ rest.flatten)).1 := ih1
        _ = (processMidiData s (c ++ (c2 ++ rest.flatten))).1 := m1'
    · calc (processChunks s (c :: c2 :: rest)).2.2
          = (processMidiData s c).2.2 ++
            (processChunks (processMidiData s c).1 (c2 :: rest)).2.2 := rfl
        _ = (processMidiData s c).2.2 ++
            (processMidiData (processMidiData s c).1 (c2 ++ rest.flatten)).2.2 := by
          rw [ih2]
        _ = (processMidiData s (c ++ (c2 ++ rest.flatten))).2.2 := m2'
    · calc (processChunks s (c :: c2 :: rest)).2.1.filterMap semOfParsed
          = ((processMidiData s c).2.1 ++
            (processChunks (processMidiData s c).1 (c2 :: rest)).2.1).filterMap
              semOfParsed := rfl
        _ = (processMidiData s c).2.1.filterMap semOfParsed ++
            (processChunks (processMidiData s c).1 (c2 :: rest)).2.1.filterMap
              semOfParsed := by rw [List.filterMap_append]
        _ = (processMidiData s c).2.1.filterMap semOfParsed ++
            (processMidiData (processMidiData s c).1 (c2 ++ rest.flatten)).2.1.filterMap
              semOfParsed := by rw [ih3]
        _ = ((processMidiData s c).2.1 ++
            (processMidiData (processMidiData s c).1 (c2 ++ rest.flatten)).2.1).filterMap
              semOfParsed := by rw [List.filterMap_append]
        _ = (processMidiData s (c ++ (c2 ++ rest.flatten))).2.1.filterMap semOfParsed :=
          m3'

/-- C1: feeding a byte stream split into arbitrarily-sized consecutive chunks
produces, from any starting state, the same final state, the same effect
(notification) sequence in the same order, and the same sequence of semantic
events as feeding the concatenation as one single chunk. Semantic events are
the parsed frames stripped of the raw byte field, with discarded unknown
frames dropped: raw frame boundaries can differ across a split (a note-on /
note-off pair is coalesced into one frame only when both halves are in the
buffer together), but such differences are confined to discarded unknown
frames and raw bytes, which produce no cache updates and no notifications. -/
theorem claim_C1_chunk_boundary_independence (s : EngineState) (c : List Nat)
    (rest : List (List Nat)) :
    (processChunks s (c :: rest)).1 = (processMidiData s (c :: rest).flatten).1 ∧
    (processChunks s (c :: rest)).2.2 = (processMidiData s (c :: rest).flatten).2.2 ∧
    (processChunks s (c :: rest)).2.1.filterMap semOfParsed =
      (processMidiData s (c :: rest).flatten).2.1.filterMap semOfParsed := by
  rw [List.flatten_cons]
  exact processChunks_join rest s c

/-! ## Running-status frame trains -/

theorem parse_raw (base : Nat) (data : List Nat) :
    (parseMidiMessage base data).raw = data := by
  cases data with
  | nil => rfl
  | cons b t =>
    simp only [parseMidiMessage]
    split_ifs <;> rfl

theorem runBuffer_groups (n : Nat) :
    ∀ (groups : List (List Nat)) (s : EngineState) (S : Nat),
      groups.length ≤ n →
      s.lastStatusByte = S →
      s.midiBuffer = groups.flatten →
      S &&& 0x80 ≠ 0 →
      (S &&& 0xf0 = 0x80 ∨ S &&& 0xf0 = 0x90 ∨ S &&& 0xf0 = 0xa0 ∨
        S &&& 0xf0 = 0xb0 ∨ S &&& 0xf0 = 0xe0 ∨ S &&& 0xf0 = 0xc0 ∨
        S &&& 0xf0 = 0xd0) →
      (∀ g ∈ groups, g.length =
        if S &&& 0xf0 = 0xc0 ∨ S &&& 0xf0 = 0xd0 then 1 else 2) →
      (∀ g ∈ groups, ∀ b ∈ g, b &&& 0x80 = 0) →
      (S &&& 0xf0 = 0xb0 → ∀ g ∈ groups, g.getD 0 0 ≠ 0x63) →
      (S &&& 0xf0 = 0x90 → ∀ g ∈ groups, g.getD 1 1 ≠ 0) →
      (runBuffer s).2.1.map (fun p => p.raw) = groups.map (fun g => S :: g) := by
  induction n with
  | zero =>
    intro groups s S hng hls hbuf hS80 hmt hlen hdata hnrpn hpair
    have hgr : groups = [] := List.length_eq_zero.mp (by omega)
    subst hgr
    rw [runBuffer_empty s (by rw [hbuf]; rfl)]
    rfl
  | succ n ihn =>
    intro groups s S hng hls hbuf hS80 hmt hlen hdata hnrpn hpair
    cases groups with
    | nil =>
      rw [runBuffer_empty s (by rw [hbuf]; rfl)]
      rfl
    | cons g gr =>
      have hg := hlen g (List.mem_cons_self g gr)
      have hgd := hdata g (List.mem_cons_self g gr)
      have hSne : S ≠ 0 := by
        intro h0
        rw [h0] at hS80
        simp at hS80
      have hng' : gr.length ≤ n := by
        simp at hng
        omega
      by_cases hcd : S &&& 0xf0 = 0xc0 ∨ S &&& 0xf0 = 0xd0
      · rw [if_pos hcd] at hg
        obtain ⟨a, hga⟩ : ∃ a, g = [a] := by
          cases g with
          | nil => simp at hg
          | cons x t =>
            cases t with
            | nil => exact ⟨x, rfl⟩
            | cons y u => simp at hg
        subst hga
        have hbuf' : s.midiBuffer = a :: gr.flatten := by rw [hbuf]; rfl
        have ha : a &&& 0x80 = 0 := hgd a (by simp)
        have hex : extractMidiMessage s.lastStatusByte s.midiBuffer =
            completeFixed S 0 false 1 (a :: gr.flatten) := by
          rw [hls, hbuf', extract_cons_data S a gr.flatten ha hSne,
            extractFrom_fixed1 _ _ _ _ hcd]
        have hexr : (extractMidiMessage s.lastStatusByte s.midiBuffer).2 =
            some { message := [S, a], bytesConsumed := 1 } := by
          rw [hex, completeFixed_complete _ _ _ _ _ (by simp)]
          rfl
        have hfst : (extractMidiMessage s.lastStatusByte s.midiBuffer).1 = S := by
          rw [hex, completeFixed_fst]
        have h1 := runBuffer_step s { message := [S, a], bytesConsumed := 1 } hexr
        rw [hfst] at h1
        rw [show s.midiBuffer.drop ({ message := [S, a], bytesConsumed := 1 } :
          ExtractResult).bytesConsumed = gr.flatten by rw [hbuf']; rfl] at h1
        rw [show ({ message := [S, a], bytesConsumed := 1 } :
          ExtractResult).message = [S, a] from rfl] at h1
        have hEv : (runBuffer s).2.1 =
            parseMidiMessage s.baseMidiChannel [S, a] ::
            (runBuffer (handleParsed
              { s with lastStatusByte := S, midiBuffer := gr.flatten }
              (parseMidiMessage s.baseMidiChannel [S, a])).1).2.1 := by rw [h1]
        have hfld := handleParsed_fields
          { s with lastStatusByte := S, midiBuffer := gr.flatten }
          (parseMidiMessage s.baseMidiChannel [S, a])
        have hXls : (handleParsed
            { s with lastStatusByte := S, midiBuffer := gr.flatten }
            (parseMidiMessage s.baseMidiChannel [S, a])).1.lastStatusByte = S := by
          rw [hfld.2.1]
        have hXbuf : (handleParsed
            { s with lastStatusByte := S, midiBuffer := gr.flatten }
            (parseMidiMessage s.baseMidiChannel [S, a])).1.midiBuffer =
            gr.flatten := by
          rw [hfld.1]
        have hrec := ihn gr (handleParsed
            { s with lastStatusByte := S, midiBuffer := gr.flatten }
            (parseMidiMessage s.baseMidiChannel [S, a])).1 S hng' hXls hXbuf
          hS80 hmt
          (fun g2 hg2 => hlen g2 (List.mem_cons_of_mem _ hg2))
          (fun g2 hg2 => hdata g2 (List.mem_cons_of_mem _ hg2))
          (fun hb g2 hg2 => hnrpn hb g2 (List.mem_cons_of_mem _ hg2))
          (fun h9 g2 hg2 => hpair h9 g2 (List.mem_cons_of_mem _ hg2))
        rw [hEv]
        simp only [List.map_cons]
        rw [parse_raw, hrec]
      · rw [if_neg hcd] at hg
        obtain ⟨a, b2, hgab⟩ : ∃ a b2, g = [a, b2] := by
          cases g with
          | nil => simp at hg
          | cons x t =>
            cases t with
            | nil => simp at hg
            | cons y u =>
              cases u with
              | nil => exact ⟨x, y, rfl⟩
              | cons z w => simp at hg
        subst hgab
        have hbuf' : s.midiBuffer = a :: b2 :: gr.flatten := by rw [hbuf]; rfl
        have ha : a &&& 0x80 = 0 := hgd a (by simp)
        have hfix : S &&& 0xf0 = 0x80 ∨ S &&& 0xf0 = 0x90 ∨ S &&& 0xf0 = 0xa0 ∨
            S &&& 0xf0 = 0xb0 ∨ S &&& 0xf0 = 0xe0 := by
          rcases hmt with h | h | h | h | h | h | h
          · exact Or.inl h
          · exact Or.inr (Or.inl h)
          · exact Or.inr (Or.inr (Or.inl h))
          · exact Or.inr (Or.inr (Or.inr (Or.inl h)))
          · exact Or.inr (Or.inr (Or.inr (Or.inr h)))
          · exact absurd (Or.inl h) hcd
          · exact absurd (Or.inr h) hcd
        have hnrpnx : ¬(S &&& 0xf0 = 0xb0 ∧
            0 + 1 ≤ (a :: b2 :: gr.flatten).length ∧
            (a :: b2 :: gr.flatten).getD 0 0 = 0x63) := by
          rintro ⟨hb0, -, hga⟩
          exact hnrpn hb0 [a, b2] (List.mem_cons_self _ _) hga
        have hpairx : ¬(S &&& 0xf0 = 0x90 ∧
            0 + 4 ≤ (a :: b2 :: gr.flatten).length ∧
            (a :: b2 :: gr.flatten).getD (0 + 2) 0 &&& 0x80 = 0 ∧
            (a :: b2 :: gr.flatten).getD (0 + 3) 0 = 0x00) := by
          rintro ⟨h90, hl4, -, hz⟩
          cases gr with
          | nil => simp at hl4
          | cons g2 gr2 =>
            have hg2 := hlen g2 (by simp)
            rw [if_neg hcd] at hg2
            obtain ⟨x, y, hxy⟩ : ∃ x y, g2 = [x, y] := by
              cases g2 with
              | nil => simp at hg2
              | cons x t =>
                cases t with
                | nil => simp at hg2
                | cons y u =>
                  cases u with
                  | nil => exact ⟨x, y, rfl⟩
                  | cons z w => simp at hg2
            subst hxy
            exact hpair h90 [x, y] (by simp) hz
        have hex : extractMidiMessage s.lastStatusByte s.midiBuffer =
            completeFixed S 0 false 2 (a :: b2 :: gr.flatten) := by
          rw [hls, hbuf', extract_cons_data S a (b2 :: gr.flatten) ha hSne,
            extractFrom_fixed2 _ _ _ _ hfix hnrpnx hpairx]
        have hexr : (extractMidiMessage s.lastStatusByte s.midiBuffer).2 =
            some { message := [S, a, b2], bytesConsumed := 2 } := by
          rw [hex, completeFixed_complete _ _ _ _ _ (by simp)]
          rfl
        have hfst : (extractMidiMessage s.lastStatusByte s.midiBuffer).1 = S := by
          rw [hex, completeFixed_fst]
        have h1 := runBuffer_step s { message := [S, a, b2], bytesConsumed := 2 } hexr
        rw [hfst] at h1
        rw [show s.midiBuffer.drop ({ message := [S, a, b2], bytesConsumed := 2 } :
          ExtractResult).bytesConsumed = gr.flatten by rw [hbuf']; rfl] at h1
        rw [show ({ message := [S, a, b2], bytesConsumed := 2 } :
          ExtractResult).message = [S, a, b2] from rfl] at h1
        have hEv : (runBuffer s).2.1 =
            parseMidiMessage s.baseMidiChannel [S, a, b2] ::
            (runBuffer (handleParsed
              { s with lastStatusByte := S, midiBuffer := gr.flatten }
              (parseMidiMessage s.baseMidiChannel [S, a, b2])).1).2.1 := by rw [h1]
        have hfld := handleParsed_fields
          { s with lastStatusByte := S, midiBuffer := gr.flatten }
          (parseMidiMessage s.baseMidiChannel [S, a, b2])
        have hXls : (handleParsed
            { s with lastStatusByte := S, midiBuffer := gr.flatten }
            (parseMidiMessage s.baseMidiChannel [S, a, b2])).1.lastStatusByte = S := by
          rw [hfld.2.1]
        have hXbuf : (handleParsed
            { s with lastStatusByte := S, midiBuffer := gr.flatten }
            (parseMidiMessage s.baseMidiChannel [S, a, b2])).1.midiBuffer =
            gr.flatten := by
          rw [hfld.1]
        have hrec := ihn gr (handleParsed
            { s with lastStatusByte := S, midiBuffer := gr.flatten }
            (parseMidiMessage s.baseMidiChannel [S, a, b2])).1 S hng' hXls hXbuf
          hS80 hmt
          (fun g2 hg2 => hlen g2 (List.mem_cons_of_mem _ hg2))
          (fun g2 hg2 => hdata g2 (List.mem_cons_of_mem _ hg2))
          (fun hb g2 hg2 => hnrpn hb g2 (List.mem_cons_of_mem _ hg2))
          (fun h9 g2 hg2 => hpair h9 g2 (List.mem_cons_of_mem _ hg2))
        rw [hEv]
        simp only [List.map_cons]
        rw [parse_raw, hrec]

/-- C5 (amended): a fixed-length status byte S followed by N complete
running-status data groups is split by the extractor into N frames, each
carrying the original status byte S in front of its data group — provided no
group triggers one of the two greedy special cases that swallow several
groups into one frame: for control change (0xb0) no group may start with
controller 0x63 (which starts a six-data-byte NRPN frame), and for note on
(0x90) no group may have 0 as its second byte (a following (note, 0) group is
coalesced into the preceding note-on frame as its note-off half). The
unamended claim is refuted by claim_C5_counterexample_nrpn. -/
theorem claim_C5_running_status_frames (S : Nat) (groups : List (List Nat))
    (s : EngineState)
    (hbuf : s.midiBuffer = S :: groups.flatten)
    (hS80 : S &&& 0x80 ≠ 0)
    (hmt : S &&& 0xf0 = 0x80 ∨ S &&& 0xf0 = 0x90 ∨ S &&& 0xf0 = 0xa0 ∨
      S &&& 0xf0 = 0xb0 ∨ S &&& 0xf0 = 0xe0 ∨ S &&& 0xf0 = 0xc0 ∨
      S &&& 0xf0 = 0xd0)
    (hlen : ∀ g ∈ groups, g.length =
      if S &&& 0xf0 = 0xc0 ∨ S &&& 0xf0 = 0xd0 then 1 else 2)
    (hdata : ∀ g ∈ groups, ∀ b ∈ g, b &&& 0x80 = 0)
    (hnrpn : S &&& 0xf0 = 0xb0 → ∀ g ∈ groups, g.getD 0 0 ≠ 0x63)
    (hpair : S &&& 0xf0 = 0x90 → ∀ g ∈ groups, g.getD 1 1 ≠ 0) :
    (runBuffer s).2.1.map (fun p => p.raw) = groups.map (fun g => S :: g) := by
  cases groups with
  | nil =>
    have hnone : (extractMidiMessage s.lastStatusByte s.midiBuffer).2 = none := by
      rw [hbuf, extract_cons_status _ _ _ hS80]
      by_cases hcd : S &&& 0xf0 = 0xc0 ∨ S &&& 0xf0 = 0xd0
      · rw [extractFrom_fixed1 _ _ _ _ hcd,
          completeFixed_incomplete _ _ _ _ _ (by simp)]
      · have hfix : S &&& 0xf0 = 0x80 ∨ S &&& 0xf0 = 0x90 ∨ S &&& 0xf0 = 0xa0 ∨
            S &&& 0xf0 = 0xb0 ∨ S &&& 0xf0 = 0xe0 := by
          rcases hmt with h | h | h | h | h | h | h
          · exact Or.inl h
          · exact Or.inr (Or.inl h)
          · exact Or.inr (Or.inr (Or.inl h))
          · exact Or.inr (Or.inr (Or.inr (Or.inl h)))
          · exact Or.inr (Or.inr (Or.inr (Or.inr h)))
          · exact absurd (Or.inl h) hcd
          · exact absurd (Or.inr h) hcd
        rw [extractFrom_fixed2 _ _ _ _ hfix
          (by rintro ⟨-, h2, -⟩; simp at h2)
          (by rintro ⟨-, h4, -⟩; simp at h4),
          completeFixed_incomplete _ _ _ _ _ (by simp)]
    rw [runBuffer_stall s hnone]
    rfl
  | cons g gr =>
    have hg := hlen g (List.mem_cons_self g gr)
    by_cases hcd : S &&& 0xf0 = 0xc0 ∨ S &&& 0xf0 = 0xd0
    · rw [if_pos hcd] at hg
      obtain ⟨a, hga⟩ : ∃ a, g = [a] := by
        cases g with
        | nil => simp at hg
        | cons x t =>
          cases t with
          | nil => exact ⟨x, rfl⟩
          | cons y u => simp at hg
      subst hga
      have hbuf' : s.midiBuffer = S :: a :: gr.flatten := by rw [hbuf]; rfl
      have hex : extractMidiMessage s.lastStatusByte s.midiBuffer =
          completeFixed S 1 true 1 (S :: a :: gr.flatten) := by
        rw [hbuf', extract_cons_status _ _ _ hS80, extractFrom_fixed1 _ _ _ _ hcd]
      have hexr : (extractMidiMessage s.lastStatusByte s.midiBuffer).2 =
          some { message := [S, a], bytesConsumed := 2 } := by
        rw [hex, completeFixed_complete _ _ _ _ _ (by simp)]
        rfl
      have hfst : (extractMidiMessage s.lastStatusByte s.midiBuffer).1 = S := by
        rw [hex, completeFixed_fst]
      have h1 := runBuffer_step s { message := [S, a], bytesConsumed := 2 } hexr
      rw [hfst] at h1
      rw [show s.midiBuffer.drop ({ message := [S, a], bytesConsumed := 2 } :
        ExtractResult).bytesConsumed = gr.flatten by rw [hbuf']; rfl] at h1
      rw [show ({ message := [S, a], bytesConsumed := 2 } :
        ExtractResult).message = [S, a] from rfl] at h1
      have hEv : (runBuffer s).2.1 =
          parseMidiMessage s.baseMidiChannel [S, a] ::
          (runBuffer (handleParsed
            { s with lastStatusByte := S, midiBuffer := gr.flatten }
            (parseMidiMessage s.baseMidiChannel [S, a])).1).2.1 := by rw [h1]
      have hfld := handleParsed_fields
        { s with lastStatusByte := S, midiBuffer := gr.flatten }
        (parseMidiMessage s.baseMidiChannel [S, a])
      have hrec := runBuffer_groups gr.length gr (handleParsed
          { s with lastStatusByte := S, midiBuffer := gr.flatten }
          (parseMidiMessage s.baseMidiChannel [S, a])).1 S (Nat.le_refl _)
        (by rw [hfld.2.1]) (by rw [hfld.1]) hS80 hmt
        (fun g2 hg2 => hlen g2 (List.mem_cons_of_mem _ hg2))
        (fun g2 hg2 => hdata g2 (List.mem_cons_of_mem _ hg2))
        (fun hb g2 hg2 => hnrpn hb g2 (List.mem_cons_of_mem _ hg2))
        (fun h9 g2 hg2 => hpair h9 g2 (List.mem_cons_of_mem _ hg2))
      rw [hEv]
      simp only [List.map_cons]
      rw [parse_raw, hrec]
    · rw [if_neg hcd] at hg
      obtain ⟨a, b2, hgab⟩ : ∃ a b2, g = [a, b2] := by
        cases g with
        | nil => simp at hg
        | cons x t =>
          cases t with
          | nil => simp at hg
          | cons y u =>
            cases u with
            | nil => exact ⟨x, y, rfl⟩
            | cons z w => simp at hg
      subst hgab
      have hbuf' : s.midiBuffer = S :: a :: b2 :: gr.flatten := by rw [hbuf]; rfl
      have hfix : S &&& 0xf0 = 0x80 ∨ S &&& 0xf0 = 0x90 ∨ S &&& 0xf0 = 0xa0 ∨
          S &&& 0xf0 = 0xb0 ∨ S &&& 0xf0 = 0xe0 := by
        rcases hmt with h | h | h | h | h | h | h
        · exact Or.inl h
        · exact Or.inr (Or.inl h)
        · exact Or.inr (Or.inr (Or.inl h))
        · exact Or.inr (Or.inr (Or.inr (Or.inl h)))
        · exact Or.inr (Or.inr (Or.inr (Or.inr h)))
        · exact absurd (Or.inl h) hcd
        · exact absurd (Or.inr h) hcd
      have hnrpnx : ¬(S &&& 0xf0 = 0xb0 ∧
          1 + 1 ≤ (S :: a :: b2 :: gr.flatten).length ∧
          (S :: a :: b2 :: gr.flatten).getD 1 0 = 0x63) := by
        rintro ⟨hb0, -, hga⟩
        exact hnrpn hb0 [a, b2] (List.mem_cons_self _ _) hga
      have hpairx : ¬(S &&& 0xf0 = 0x90 ∧
          1 + 4 ≤ (S :: a :: b2 :: gr.flatten).length ∧
          (S :: a :: b2 :: gr.flatten).getD (1 + 2) 0 &&& 0x80 = 0 ∧
          (S :: a :: b2 :: gr.flatten).getD (1 + 3) 0 = 0x00) := by
        rintro ⟨h90, hl4, -, hz⟩
        cases gr with
        | nil => simp at hl4
        | cons g2 gr2 =>
          have hg2 := hlen g2 (by simp)
          rw [if_neg hcd] at hg2
          obtain ⟨x, y, hxy⟩ : ∃ x y, g2 = [x, y] := by
            cases g2 with
            | nil => simp at hg2
            | cons x t =>
              cases t with
              | nil => simp at hg2
              | cons y u =>
                cases u with
                | nil => exact ⟨x, y, rfl⟩
                | cons z w => simp at hg2
          subst hxy
          exact hpair h90 [x, y] (by simp) hz
      have hex : extractMidiMessage s.lastStatusByte s.midiBuffer =
          completeFixed S 1 true 2 (S :: a :: b2 :: gr.flatten) := by
        rw [hbuf', extract_cons_status _ _ _ hS80,
          extractFrom_fixed2 _ _ _ _ hfix hnrpnx hpairx]
      have hexr : (extractMidiMessage s.lastStatusByte s.midiBuffer).2 =
          some { message := [S, a, b2], bytesConsumed := 3 } := by
        rw [hex, completeFixed_complete _ _ _ _ _ (by simp)]
        rfl
      have hfst : (extractMidiMessage s.lastStatusByte s.midiBuffer).1 = S := by
        rw [hex, completeFixed_fst]
      have h1 := runBuffer_step s { message := [S, a, b2], bytesConsumed := 3 } hexr
      rw [hfst] at h1
      rw [show s.midiBuffer.drop ({ message := [S, a, b2], bytesConsumed := 3 } :
        ExtractResult).bytesConsumed = gr.flatten by rw [hbuf']; rfl] at h1
      rw [show ({ message := [S, a, b2], bytesConsumed := 3 } :
        ExtractResult).message = [S, a, b2] from rfl] at h1
      have hEv : (runBuffer s).2.1 =
          parseMidiMessage s.baseMidiChannel [S, a, b2] ::
          (runBuffer (handleParsed
            { s with lastStatusByte := S, midiBuffer := gr.flatten }
            (parseMidiMessage s.baseMidiChannel [S, a, b2])).1).2.1 := by rw [h1]
      have hfld := handleParsed_fields
        { s with lastStatusByte := S, midiBuffer := gr.flatten }
        (parseMidiMessage s.baseMidiChannel [S, a, b2])
      have hrec := runBuffer_groups gr.length gr (handleParsed
          { s with lastStatusByte := S, midiBuffer := gr.flatten }
          (parseMidiMessage s.baseMidiChannel [S, a, b2])).1 S (Nat.le_refl _)
        (by rw [hfld.2.1]) (by rw [hfld.1]) hS80 hmt
        (fun g2 hg2 => hlen g2 (List.mem_cons_of_mem _ hg2))
        (fun g2 hg2 => hdata g2 (List.mem_cons_of_mem _ hg2))
        (fun hb g2 hg2 => hnrpn hb g2 (List.mem_cons_of_mem _ hg2))
        (fun h9 g2 hg2 => hpair h9 g2 (List.mem_cons_of_mem _ hg2))
      rw [hEv]
      simp only [List.map_cons]
      rw [parse_raw, hrec]

/-- C5 witness: note-on status 0x90 followed by the two running-status groups
(0x00, 0x7f) and (0x01, 0x40) yields two frames, each prefixed with 0x90. -/
theorem claim_C5_running_status_frames_witness :
    (runBuffer { initState 0 with
      midiBuffer := [0x90, 0x00, 0x7f, 0x01, 0x40] }).2.1.map (fun p => p.raw) =
      [[0x90, 0x00, 0x7f], [0x90, 0x01, 0x40]] :=
  claim_C5_running_status_frames 0x90 [[0x00, 0x7f], [0x01, 0x40]]
    { initState 0 with midiBuffer := [0x90, 0x00, 0x7f, 0x01, 0x40] }
    rfl (by decide) (by decide) (by decide) (by decide) (by decide) (by decide)

/-- C5 counterexample to the unamended claim: control-change status 0xb0
followed by the three complete running-status data groups (0x63, 0x00),
(0x62, 0x17), (0x06, 0x64) — all data bytes with the high bit clear — is
extracted as one single six-data-byte NRPN frame, not as three two-byte
frames each carrying the status byte. -/
theorem claim_C5_counterexample_nrpn :
    (runBuffer { initState 0 with
      midiBuffer := [0xb0, 0x63, 0x00, 0x62, 0x17, 0x06, 0x64] }).2.1.map
        (fun p => p.raw) =
      [[0xb0, 0x63, 0x00, 0x62, 0x17, 0x06, 0x64]] := by
  decide
